import Mathlib

/-!
# Python 2.7 filter: record codec, script binding and reconfiguration

A shallow embedding of `src/python27_filter.cpp`.

* Native values (`Reading`, `Datapoint`, `DatapointValue`) are records over
  `Int` / `Nat` / `String`; C integer conversions are written with explicit
  `% 2 ^ 64`.
* Engine objects are the inductive `PyObj`.  A dictionary is the list of its
  entries; its keys are strings.  The order of that list stands for the order
  in which `PyDict_Next` visits the entries.  Python 2.7 leaves that order
  unspecified for a dictionary the code builds: what is stated about such a
  dictionary is about its keys and lookups, and about the set of datapoints
  decoded from it.
* A `char*` handed to the engine (`PyString_FromString(s.c_str())`) or taken
  from it (`std::string(PyString_AsString(o))`) ends at the first NUL
  character: `cstr`.
* Reference counting and `new` / `delete` are not modelled; the embedding is
  about the values the functions compute.  The one `delete` that is modelled
  is that of the unassigned pointer `dataPoint` (source line 229), as an
  undefined outcome.
* A `String` stands for the bytes of a `std::string`, one `Char` for each
  `char`: lengths and positions count bytes, as `rfind`, `substr` and `replace`
  do.
* `configure` and `reconfigure` are functions on the members of the filter
  (`Filter`), with the engine (`Engine`) as a parameter; a C++ exception is an
  `Except.error`.  The configuration mutex is not modelled.
-/

namespace Python27Filter

/-! ## Native data model -/

/-- The 64-bit modulus of `long` and `unsigned long`. -/
def two64 : Nat := 2 ^ 64

/-- The content of a C string: the characters in front of the first NUL. -/
def cstr (s : String) : String :=
  String.mk (s.data.takeWhile (fun c => decide (c ≠ Char.ofNat 0)))

/-- A C `double`, carried as its 64-bit pattern; the engine conversions
`PyFloat_FromDouble` and `PyFloat_AS_DOUBLE` leave it unchanged. -/
structure Double where
  bits : Nat
  deriving DecidableEq, Repr

/-- Value of a datapoint, `DatapointValue` with its type tag. -/
inductive DatapointValue where
  | T_INTEGER (i : Int)
  | T_FLOAT (f : Double)
  | T_STRING (s : String)
  deriving DecidableEq, Repr

/-- A named value, `Datapoint(name, value)`. -/
structure Datapoint where
  name : String
  data : DatapointValue
  deriving DecidableEq, Repr

/-- A reading, with the fields behind `getAssetName`, `getReadingData`, `getId`,
`getUuid`, `getTimestamp` and `getUserTimestamp`. -/
structure Reading where
  assetName : String
  readingData : List Datapoint
  id : Nat
  uuid : String
  timestamp : Nat
  userTimestamp : Nat
  deriving DecidableEq, Repr

/-- What the `Reading` constructor generates itself: the initial id, a fresh
uuid and the current time for both timestamps. -/
structure ReadingDefaults where
  id : Nat
  uuid : String
  timestamp : Nat
  userTimestamp : Nat
  deriving DecidableEq, Repr

/-- The constructor `Reading(asset, datapoint)`. -/
def Reading.new (d : ReadingDefaults) (asset : String) (dp : Datapoint) : Reading :=
  { assetName := asset, readingData := [dp], id := d.id, uuid := d.uuid,
    timestamp := d.timestamp, userTimestamp := d.userTimestamp }

/-- The method `Reading::addDatapoint`. -/
def Reading.addDatapoint (r : Reading) (dp : Datapoint) : Reading :=
  { r with readingData := r.readingData ++ [dp] }

/-! ## Engine objects -/

/-- Objects of the Python 2.7 engine. `int` is the plain integer (a C `long`),
`long` the unbounded integer; `bool` is a subtype of `int` in the engine. -/
inductive PyObj where
  | none
  | bool (b : Bool)
  | int (n : Int)
  | long (n : Int)
  | float (d : Double)
  | str (s : String)
  | list (items : List PyObj)
  | dict (entries : List (String × PyObj))

/-- Entries of an engine dictionary. -/
abbrev PyDict := List (String × PyObj)

/-- Lookup in the entries of a dictionary. -/
def PyDict.get : PyDict → String → Option PyObj
  | [], _ => Option.none
  | (k, v) :: rest, key => if k = key then some v else PyDict.get rest key

/-- Update of the entries by `PyDict_SetItemString(d, key, v)`, `key` already a
C string: an existing key keeps its place and takes the new value. -/
def PyDict.set : PyDict → String → PyObj → PyDict
  | [], key, v => [(key, v)]
  | (k, w) :: rest, key, v =>
    if k = key then (k, v) :: rest else (k, w) :: PyDict.set rest key v

/-- The call `PyDict_SetItemString(d, key, v)`. -/
def PyDict_SetItemString (d : PyDict) (key : String) (v : PyObj) : PyDict :=
  PyDict.set d (cstr key) v

/-- The call `PyDict_GetItemString(o, key)`: NULL when `o` is no dictionary or
has no such key. -/
def PyDict_GetItemString (o : PyObj) (key : String) : Option PyObj :=
  match o with
  | .dict entries => PyDict.get entries (cstr key)
  | _ => Option.none

/-- The test `PyDict_Check`. -/
def PyDict_Check : PyObj → Bool
  | .dict _ => true
  | _ => false

/-- The test `PyInt_Check`: plain integers, and booleans as their subtype. -/
def PyInt_Check : PyObj → Bool
  | .int _ => true
  | .bool _ => true
  | _ => false

/-- The test `PyLong_Check`. -/
def PyLong_Check : PyObj → Bool
  | .long _ => true
  | _ => false

/-- The test `PyFloat_Check`. -/
def PyFloat_Check : PyObj → Bool
  | .float _ => true
  | _ => false

/-- The test `PyString_Check`. -/
def PyString_Check : PyObj → Bool
  | .str _ => true
  | _ => false

/-- The call `PyString_AsString`, read as a C string: NULL for an object that
is no string. -/
def PyString_AsString : PyObj → Option String
  | .str s => some (cstr s)
  | _ => Option.none

/-- The integer an engine integer object stands for. -/
def PyObj.intValue : PyObj → Int
  | .int n => n
  | .long n => n
  | .bool b => if b then 1 else 0
  | _ => 0

/-- The call `PyInt_AsUnsignedLongMask` on an integer object: its value modulo
2^64. -/
def PyInt_AsUnsignedLongMask (o : PyObj) : Nat :=
  (o.intValue % (two64 : Int)).toNat

/-- The cast `(long)` of an `unsigned long`. -/
def toLong (u : Nat) : Int :=
  if u % two64 < 2 ^ 63 then ((u % two64 : Nat) : Int) else ((u % two64 : Nat) : Int) - (two64 : Int)

/-- The call `PyLong_AsUnsignedLong` on a long object: its value when that
fits, else the error value `(unsigned long)-1`. -/
def PyLong_AsUnsignedLong (o : PyObj) : Nat :=
  if 0 ≤ o.intValue ∧ o.intValue < (two64 : Int) then o.intValue.toNat else two64 - 1

/-- The macro `PyFloat_AS_DOUBLE`, used on float objects only. -/
def PyFloat_AS_DOUBLE : PyObj → Double
  | .float d => d
  | _ => { bits := 0 }

/-- The call `PyString_FromString(s.c_str())`. -/
def PyString_FromString (s : String) : PyObj := .str (cstr s)

/-- The call `PyInt_FromLong`. -/
def PyInt_FromLong (i : Int) : PyObj := .int i

/-- The call `PyFloat_FromDouble`. -/
def PyFloat_FromDouble (f : Double) : PyObj := .float f

/-- The call `PyLong_FromUnsignedLong`. -/
def PyLong_FromUnsignedLong (n : Nat) : PyObj := .long (n : Int)

/-! ## `createReadingsList` -/

/-- The engine value built for one datapoint value (source lines 84-98).
`valueToString` is `DatapointValue::toString`, a library method whose code is
not part of the repository. -/
def datapointToPy (valueToString : DatapointValue → String) (v : DatapointValue) : PyObj :=
  match v with
  | .T_INTEGER i => PyInt_FromLong i
  | .T_FLOAT f => PyFloat_FromDouble f
  | other => PyString_FromString (valueToString other)

/-- The dictionary `newDataPoints` after the loop over the datapoints of one
reading (source lines 78-105). -/
def newDataPoints (valueToString : DatapointValue → String) (dataPoints : List Datapoint) : PyDict :=
  dataPoints.foldl
    (fun d dp => PyDict_SetItemString d dp.name (datapointToPy valueToString dp.data)) []

/-- The dictionary `readingObject` built for one reading (source lines 74-131). -/
def readingObject (valueToString : DatapointValue → String) (r : Reading) : PyObj :=
  let o : PyDict := []
  let o := PyDict_SetItemString o "reading" (.dict (newDataPoints valueToString r.readingData))
  let o := PyDict_SetItemString o "asset_code" (PyString_FromString r.assetName)
  let o := PyDict_SetItemString o "id" (PyLong_FromUnsignedLong r.id)
  let o := PyDict_SetItemString o "uuid" (PyString_FromString r.uuid)
  let o := PyDict_SetItemString o "ts" (PyLong_FromUnsignedLong r.timestamp)
  let o := PyDict_SetItemString o "user_ts" (PyLong_FromUnsignedLong r.userTimestamp)
  .dict o

/-- The method `Python27Filter::createReadingsList` (source lines 63-147): one
dictionary per reading, appended in the order of the input. -/
def createReadingsList (valueToString : DatapointValue → String) (readings : List Reading) : PyObj :=
  .list (readings.foldl (fun readingsList r => readingsList ++ [readingObject valueToString r]) [])

/-! ## `getFilteredReadings` -/

/-- How a decoding step ends. `undefined`: the code runs into behaviour that C++
leaves undefined: it builds a `std::string` from the NULL that
`PyString_AsString` returns for an object that is no string (source lines
237-238), or it deletes the pointer `dataPoint`, which no branch has assigned
(source lines 213 and 229). `null`: the function returns NULL. -/
inductive Outcome (α : Type) where
  | undefined
  | null
  | ok (a : α)
  deriving DecidableEq, Repr

/-- The native value for one entry of the `reading` dictionary (source lines
213-225), `none` on the last branch (lines 226-232), where no value is built
and `dataPoint` stays unassigned. -/
def datapointValueOf (dValue : PyObj) : Option DatapointValue :=
  if PyInt_Check dValue || PyLong_Check dValue then
    some (.T_INTEGER (toLong (PyInt_AsUnsignedLongMask dValue)))
  else if PyFloat_Check dValue then
    some (.T_FLOAT (PyFloat_AS_DOUBLE dValue))
  else if PyString_Check dValue then
    match PyString_AsString dValue with
    | some s => some (.T_STRING s)
    | Option.none => Option.none
  else
    Option.none

/-- The setter `Reading::setId`. -/
def Reading.setId (r : Reading) (id : Nat) : Reading := { r with id := id }

/-- The setter `Reading::setTimestamp`. -/
def Reading.setTimestamp (r : Reading) (ts : Nat) : Reading := { r with timestamp := ts }

/-- The setter `Reading::setUserTimestamp`. -/
def Reading.setUserTimestamp (r : Reading) (uts : Nat) : Reading :=
  { r with userTimestamp := uts }

/-- The setter `Reading::setUuid`. -/
def Reading.setUuid (r : Reading) (uuid : String) : Reading := { r with uuid := uuid }

/-- The key `id` applied to the reading (source lines 250-256). -/
def setOriginalId (element : PyObj) (r : Reading) : Reading :=
  match PyDict_GetItemString element "id" with
  | some id => if PyLong_Check id then r.setId (PyLong_AsUnsignedLong id) else r
  | Option.none => r

/-- The key `ts` applied to the reading (source lines 258-264). -/
def setOriginalTs (element : PyObj) (r : Reading) : Reading :=
  match PyDict_GetItemString element "ts" with
  | some ts => if PyLong_Check ts then r.setTimestamp (PyLong_AsUnsignedLong ts) else r
  | Option.none => r

/-- The key `user_ts` applied to the reading (source lines 266-272). -/
def setOriginalUserTs (element : PyObj) (r : Reading) : Reading :=
  match PyDict_GetItemString element "user_ts" with
  | some uts => if PyLong_Check uts then r.setUserTimestamp (PyLong_AsUnsignedLong uts) else r
  | Option.none => r

/-- The key `uuid` applied to the reading (source lines 274-280). -/
def setOriginalUuid (element : PyObj) (r : Reading) : Reading :=
  match PyDict_GetItemString element "uuid" with
  | some uuid =>
    if PyString_Check uuid then
      match PyString_AsString uuid with
      | some s => r.setUuid s
      | Option.none => r
    else r
  | Option.none => r

/-- The four optional keys applied in the order of the source (lines 247-280). -/
def setOriginal (element : PyObj) (r : Reading) : Reading :=
  setOriginalUuid element (setOriginalUserTs element (setOriginalTs element (setOriginalId element r)))

/-- The `while (PyDict_Next(...))` loop over the entries of `reading` (source
lines 211-284); `newReading` is the reading built so far, `none` for NULL. On
the branch for a value of no supported type the source runs `delete dataPoint`
before `return NULL`, with `dataPoint` declared in the loop body without a
value and assigned on the other branches only: the outcome is `undefined`. -/
def readDatapoints (d : ReadingDefaults) (element assetCode : PyObj) :
    PyDict → Option Reading → Outcome (Option Reading)
  | [], newReading => .ok newReading
  | (dKey, dValue) :: rest, newReading =>
    match datapointValueOf dValue with
    | Option.none => .undefined
    | some dataPoint =>
      match newReading with
      | Option.none =>
        match PyString_AsString assetCode with
        | Option.none => .undefined
        | some asset =>
          readDatapoints d element assetCode rest
            (some (setOriginal element (Reading.new d asset ⟨cstr dKey, dataPoint⟩)))
      | some r =>
        readDatapoints d element assetCode rest
          (some (setOriginal element (r.addDatapoint ⟨cstr dKey, dataPoint⟩)))

/-- The body of the `for` loop for one list element (source lines 182-284): the
entry pushed to the result, `none` for a NULL `Reading*`. -/
def readElement (d : ReadingDefaults) (element : PyObj) : Outcome (Option Reading) :=
  match PyDict_GetItemString element "asset_code", PyDict_GetItemString element "reading" with
  | some assetCode, some (.dict entries) => readDatapoints d element assetCode entries Option.none
  | _, _ => .null

/-- The `for` loop of `getFilteredReadings` from index `i` on. `defaults i` is
what the `Reading` constructor generates for the reading of element `i`. -/
def readElements (defaults : Nat → ReadingDefaults) : Nat → List PyObj → Outcome (List (Option Reading))
  | _, [] => .ok []
  | i, element :: rest =>
    match readElement (defaults i) element with
    | .undefined => .undefined
    | .null => .null
    | .ok newReading =>
      match readElements defaults (i + 1) rest with
      | .ok newReadings => .ok (newReading :: newReadings)
      | .undefined => .undefined
      | .null => .null

/-- The method `Python27Filter::getFilteredReadings` (source lines 160-294).
For an object that is no list `PyList_Size` is -1 and the loop does not run. -/
def getFilteredReadings (defaults : Nat → ReadingDefaults) (filteredData : PyObj) :
    Outcome (List (Option Reading)) :=
  match filteredData with
  | .list items => readElements defaults 0 items
  | _ => .ok []

/-! ## `std::string` operations used by `setScriptName` and `configure` -/

/-- The constant `std::string::npos`, the largest `size_t`. -/
def npos : Nat := two64 - 1

/-- Addition of two `size_t` values. -/
def sizeAdd (a b : Nat) : Nat := (a + b) % two64

/-- Exceptions thrown by the `std::string` members. -/
inductive CppException where
  | out_of_range
  deriving DecidableEq, Repr

/-- Whether `pat` stands in `s` at index `i`. -/
def occursAt (s pat : List Char) (i : Nat) : Bool :=
  decide ((s.drop i).take pat.length = pat)

/-- Search for `pat` in `s` downwards from index `i`. -/
def rfindFrom (s pat : List Char) : Nat → Nat
  | 0 => if occursAt s pat 0 then 0 else npos
  | i + 1 => if occursAt s pat (i + 1) then i + 1 else rfindFrom s pat i

/-- The member `s.rfind(pat)`: index of the last occurrence of `pat`, or `npos`. -/
def rfind (s pat : String) : Nat :=
  if pat.data.length ≤ s.data.length then
    rfindFrom s.data pat.data (s.data.length - pat.data.length)
  else npos

/-- Index of the last character of `s` (read from index `i` on) that satisfies
`p`, or `best` when there is none. -/
def lastIndexFrom (p : Char → Bool) : List Char → Nat → Nat → Nat
  | [], _, best => best
  | c :: cs, i, best => lastIndexFrom p cs (i + 1) (if p c then i else best)

/-- The member `s.find_last_of(chars)`. -/
def find_last_of (s chars : String) : Nat :=
  lastIndexFrom (fun c => chars.data.contains c) s.data 0 npos

/-- The member `s.substr(pos)`. -/
def substr (s : String) (pos : Nat) : Except CppException String :=
  if pos > s.data.length then .error .out_of_range
  else .ok (String.mk (s.data.drop pos))

/-- The member `s.replace(pos, len, t)`. -/
def replace (s : String) (pos len : Nat) (t : String) : Except CppException String :=
  if pos > s.data.length then .error .out_of_range
  else .ok (String.mk (s.data.take pos ++ t.data ++ s.data.drop (pos + min len (s.data.length - pos))))

/-! ## Configuration and script name -/

/-- The macro `PYTHON_SCRIPT_METHOD_PREFIX`. -/
def PYTHON_SCRIPT_METHOD_PREFIX : String := "_script_"

/-- The macro `PYTHON_SCRIPT_FILENAME_EXTENSION`. -/
def PYTHON_SCRIPT_FILENAME_EXTENSION : String := ".py"

/-- The macro `SCRIPT_CONFIG_ITEM_NAME`. -/
def SCRIPT_CONFIG_ITEM_NAME : String := "script"

/-- The call `strlen` on a string literal. -/
def strlen (s : String) : Nat := (cstr s).data.length

/-- One item of a configuration category: its value and, when it has one, its
`file` attribute. -/
structure ConfigItem where
  value : String
  file : Option String
  deriving DecidableEq, Repr

/-- The part of `ConfigCategory` the filter reads: the items by name. -/
structure ConfigCategory where
  items : List (String × ConfigItem)
  deriving DecidableEq, Repr

/-- Lookup of an item by name. -/
def ConfigCategory.item (c : ConfigCategory) (name : String) : Option ConfigItem :=
  (c.items.find? (fun kv => decide (kv.1 = name))).map Prod.snd

/-- The method `ConfigCategory::itemExists`. -/
def ConfigCategory.itemExists (c : ConfigCategory) (name : String) : Bool :=
  (c.item name).isSome

/-- The method `ConfigCategory::getItemAttribute(name, FILE_ATTR)`; `none` where
it throws `ConfigItemAttributeNotFound`. -/
def ConfigCategory.getItemAttribute (c : ConfigCategory) (name : String) : Option String :=
  match c.item name with
  | some it => it.file
  | Option.none => Option.none

/-- The method `Python27Filter::setScriptName` (source lines 497-534) on the
member `m_pythonScript`: the returned flag and the new value of the member. -/
def setScriptName (config : ConfigCategory) (m_pythonScript : String) :
    Except CppException (Bool × String) :=
  let updated : Except CppException String :=
    if config.itemExists SCRIPT_CONFIG_ITEM_NAME then
      match config.getItemAttribute SCRIPT_CONFIG_ITEM_NAME with
      | some file =>
        let found := find_last_of file "/"
        substr file (sizeAdd found 1)
      | Option.none => .ok m_pythonScript
    else .ok m_pythonScript
  match updated with
  | .ok script => .ok (!(decide (script.data = [])), script)
  | .error e => .error e

/-- The first step of `Python27Filter::configure` (source lines 339-351): from
`m_pythonScript`, the new value of `m_pythonScript`, which is the name handed to
`PyImport_Import`, and `filterMethod`, the name handed to
`PyObject_GetAttrString`. -/
def configureNames (m_pythonScript : String) : Except CppException (String × String) :=
  let found := rfind m_pythonScript PYTHON_SCRIPT_METHOD_PREFIX
  match substr m_pythonScript (sizeAdd found (strlen PYTHON_SCRIPT_METHOD_PREFIX)) with
  | .error e => .error e
  | .ok filterMethod =>
    let found := rfind filterMethod PYTHON_SCRIPT_FILENAME_EXTENSION
    match replace filterMethod found (strlen PYTHON_SCRIPT_FILENAME_EXTENSION) "" with
    | .error e => .error e
    | .ok filterMethod =>
      let found := rfind m_pythonScript PYTHON_SCRIPT_FILENAME_EXTENSION
      match replace m_pythonScript found (strlen PYTHON_SCRIPT_FILENAME_EXTENSION) "" with
      | .error e => .error e
      | .ok script => .ok (script, filterMethod)

/-! ## Engine binding and `configure` -/

/-- The macro `DEFAULT_FILTER_CONFIG_METHOD`. -/
def DEFAULT_FILTER_CONFIG_METHOD : String := "set_filter_config"

/-- An attribute of a loaded module: a callable, with what a call on one
argument returns (`none` for NULL, an engine error being set), or an object
that cannot be called. -/
inductive PyAttr where
  | callable (call : PyObj → Option PyObj)
  | object (o : PyObj)

/-- A loaded script module: its attributes by name. -/
structure PyModule where
  attrs : List (String × PyAttr)

/-- The call `PyObject_GetAttrString(module, name)`, NULL without such an
attribute. -/
def PyObject_GetAttrString (m : PyModule) (name : String) : Option PyAttr :=
  (m.attrs.find? (fun kv => decide (kv.1 = cstr name))).map Prod.snd

/-- The test `PyCallable_Check`, false for NULL. -/
def PyCallable_Check : Option PyAttr → Bool
  | some (.callable _) => true
  | _ => false

/-- The call `PyObject_CallFunctionObjArgs(f, arg, NULL)` on an attribute that
passed `PyCallable_Check`. -/
def PyObject_CallFunctionObjArgs (f : Option PyAttr) (arg : PyObj) : Option PyObj :=
  match f with
  | some (.callable call) => call arg
  | _ => Option.none

/-- The test `PyBool_Check`. -/
def PyBool_Check : PyObj → Bool
  | .bool _ => true
  | _ => false

/-- The call `PyInt_AsLong` on an integer object. -/
def PyInt_AsLong (o : PyObj) : Int := toLong (PyInt_AsUnsignedLongMask o)

/-- The scripting engine as `configure` uses it: `PyImport_Import` by name, NULL
when the import fails. -/
structure Engine where
  PyImport_Import : String → Option PyModule

/-- The method `ConfigCategory::getValue` of an existing item. -/
def ConfigCategory.getValue (c : ConfigCategory) (name : String) : String :=
  match c.item name with
  | some it => it.value
  | Option.none => ""

/-- The members of a `Python27Filter` instance that `configure` reads and
writes, with the configuration and the enabled flag of the base class. -/
structure Filter where
  config : ConfigCategory
  enabled : Bool
  m_pModule : Option PyModule
  m_pFunc : Option PyAttr
  m_pythonScript : String

/-- The rest of `Python27Filter::configure` (source lines 353-485), run with the
name `script` to import and the entry-point name `filterMethod` of its first
step: the returned flag and the members afterwards. -/
def configureLoad (engine : Engine) (f : Filter) (script filterMethod : String) : Bool × Filter :=
  let f := { f with m_pythonScript := script }
  match engine.PyImport_Import (cstr script) with
  | Option.none => (false, { f with m_pModule := Option.none })
  | some pModule =>
    let pFunc := PyObject_GetAttrString pModule filterMethod
    if !PyCallable_Check pFunc then
      (false, { f with m_pModule := Option.none, m_pFunc := Option.none })
    else
      let filterConfiguration :=
        if f.config.itemExists "config" then f.config.getValue "config" else "{}"
      let pConfigFunc := PyObject_GetAttrString pModule DEFAULT_FILTER_CONFIG_METHOD
      if PyCallable_Check pConfigFunc then
        let pConfig :=
          PyObj.dict (PyDict_SetItemString [] "config" (PyString_FromString filterConfiguration))
        match PyObject_CallFunctionObjArgs pConfigFunc pConfig with
        | Option.none => (false, { f with m_pModule := Option.none, m_pFunc := Option.none })
        | some pSetConfig =>
          if !PyBool_Check pSetConfig || decide (PyInt_AsLong pSetConfig = 0) then
            (false, { f with m_pModule := Option.none, m_pFunc := Option.none })
          else (true, { f with m_pModule := some pModule, m_pFunc := pFunc })
      else (true, { f with m_pModule := some pModule, m_pFunc := pFunc })

/-- The method `Python27Filter::configure` (source lines 332-485). An exception
of the first step leaves the members as they were. -/
def configure (engine : Engine) (f : Filter) : Except CppException (Bool × Filter) :=
  match configureNames f.m_pythonScript with
  | .error e => .error e
  | .ok (script, filterMethod) => .ok (configureLoad engine f script filterMethod)

/-! ## Predicates on engine elements -/

/-- The element's `asset_code`, when it has one, is a string. -/
def AssetCodeIsString (element : PyObj) : Prop :=
  ∀ v, PyDict_GetItemString element "asset_code" = some v → ∃ s, v = PyObj.str s

/-- The element has no `asset_code`, or no `reading`, or a `reading` that is no
dictionary. -/
def Malformed (element : PyObj) : Prop :=
  PyDict_GetItemString element "asset_code" = Option.none ∨
  PyDict_GetItemString element "reading" = Option.none ∨
  ∃ v, PyDict_GetItemString element "reading" = some v ∧ PyDict_Check v = false

/-- The value is neither an engine integer or long, nor a float, nor a string. -/
def Unsupported (v : PyObj) : Prop :=
  PyInt_Check v = false ∧ PyLong_Check v = false ∧ PyFloat_Check v = false ∧
    PyString_Check v = false

/-- The element's `reading` is a dictionary that holds an unsupported value. -/
def HasUnsupported (element : PyObj) : Prop :=
  ∃ entries, PyDict_GetItemString element "reading" = some (PyObj.dict entries) ∧
    ∃ kv ∈ entries, Unsupported kv.2

/-- The value is an engine integer or long, a float or a string. -/
def Supported (v : PyObj) : Prop :=
  (PyInt_Check v || PyLong_Check v || PyFloat_Check v || PyString_Check v) = true

/-- The element has a string `asset_code` and a `reading` dictionary whose values
are all supported. -/
def SupportedElement (element : PyObj) : Prop :=
  ∃ s entries, PyDict_GetItemString element "asset_code" = some (PyObj.str s) ∧
    PyDict_GetItemString element "reading" = some (PyObj.dict entries) ∧
    ∀ kv ∈ entries, Supported kv.2

/-- Each of the four optional keys that the element omits left the field of `r`
at the value the constructor gave it. -/
def KeepsDefaults (d : ReadingDefaults) (element : PyObj) (r : Reading) : Prop :=
  (PyDict_GetItemString element "id" = Option.none → r.id = d.id) ∧
  (PyDict_GetItemString element "ts" = Option.none → r.timestamp = d.timestamp) ∧
  (PyDict_GetItemString element "user_ts" = Option.none → r.userTimestamp = d.userTimestamp) ∧
  (PyDict_GetItemString element "uuid" = Option.none → r.uuid = d.uuid)

/-- The datapoint decoded from one entry of a `reading` dictionary. -/
def entryDatapoint (kv : String × PyObj) : Option Datapoint :=
  (datapointValueOf kv.2).map (fun v => Datapoint.mk (cstr kv.1) v)

/-! ## Predicates on readings -/

/-- The string holds no NUL character. -/
def NulFree (s : String) : Prop := Char.ofNat 0 ∉ s.data

instance (s : String) : Decidable (NulFree s) :=
  inferInstanceAs (Decidable (Char.ofNat 0 ∉ s.data))

/-- The numbers of the reading fit their C types: `unsigned long` for the id and
the two timestamps, `long` for integer values. -/
def Reading.InRange (r : Reading) : Prop :=
  r.id < two64 ∧ r.timestamp < two64 ∧ r.userTimestamp < two64 ∧
    ∀ dp ∈ r.readingData, ∀ i, dp.data = DatapointValue.T_INTEGER i →
      -(2 ^ 63 : Int) ≤ i ∧ i < 2 ^ 63

/-- No string of the reading holds a NUL character. -/
def Reading.NulFree (r : Reading) : Prop :=
  Python27Filter.NulFree r.assetName ∧ Python27Filter.NulFree r.uuid ∧
    ∀ dp ∈ r.readingData, Python27Filter.NulFree dp.name ∧
      ∀ s, dp.data = DatapointValue.T_STRING s → Python27Filter.NulFree s

/-- No two datapoints of the reading have the same name. -/
def Reading.DistinctNames (r : Reading) : Prop :=
  (r.readingData.map Datapoint.name).Nodup

instance (r : Reading) : Decidable r.DistinctNames :=
  inferInstanceAs (Decidable (r.readingData.map Datapoint.name).Nodup)

/-- The function `valueToString` gives each string value that the reading holds
unchanged. -/
def Reading.StringsKept (valueToString : DatapointValue → String) (r : Reading) : Prop :=
  ∀ dp ∈ r.readingData, ∀ s, dp.data = DatapointValue.T_STRING s →
    valueToString (DatapointValue.T_STRING s) = s

/-- The two readings agree in asset name, set of datapoints, id, uuid and both
timestamps. -/
def SameReading (a b : Reading) : Prop :=
  a.assetName = b.assetName ∧ (∀ dp, dp ∈ a.readingData ↔ dp ∈ b.readingData) ∧
    a.id = b.id ∧ a.uuid = b.uuid ∧ a.timestamp = b.timestamp ∧
    a.userTimestamp = b.userTimestamp

/-- Decoding the encoding of `rs` succeeds and gives, index by index, a reading
that agrees with the one of `rs`. -/
def RoundTrip (valueToString : DatapointValue → String) (defaults : Nat → ReadingDefaults)
    (rs : List Reading) : Prop :=
  ∃ out, getFilteredReadings defaults (createReadingsList valueToString rs) = .ok out ∧
    out.length = rs.length ∧
    ∀ (i : Nat) (r : Reading), rs[i]? = some r → ∃ r', out[i]? = some (some r') ∧ SameReading r' r

/-! ## Script file references -/

/-- The file name `c + "_script_" + m + ".py"`. -/
def scriptFileName (c m : String) : String :=
  c ++ PYTHON_SCRIPT_METHOD_PREFIX ++ m ++ PYTHON_SCRIPT_FILENAME_EXTENSION

/-- A file reference: the file name, behind `dir` and a slash when there is a
directory part. -/
def scriptFile (dir : Option String) (c m : String) : String :=
  match dir with
  | some d => d ++ "/" ++ scriptFileName c m
  | Option.none => scriptFileName c m

/-! ## `reconfigure` -/

/-- The dictionary `pConfig` that `configure` hands to `set_filter_config`
(source lines 406-435): the value of the item `config`, or `{}` without such
an item, under the key `config`. -/
def configArgument (config : ConfigCategory) : PyObj :=
  let filterConfiguration :=
    if config.itemExists "config" then config.getValue "config" else "{}"
  PyObj.dict (PyDict_SetItemString [] "config" (PyString_FromString filterConfiguration))

/-- The base-class method `disableFilter`. -/
def Filter.disableFilter (f : Filter) : Filter := { f with enabled := false }

/-- The base-class method `setConfig`, whose code is not part of the repository:
the filter adopts the new configuration; `enabled` is the enabled flag the
method leaves. -/
def Filter.setConfig (f : Filter) (newConfig : ConfigCategory) (enabled : Bool) : Filter :=
  { f with config := newConfig, enabled := enabled }

/-- The method `Python27Filter::reconfigure` (source lines 543-565), the lock
apart: what the call returns or throws, and the members afterwards. -/
def reconfigure (engine : Engine) (f : Filter) (newConfig : ConfigCategory) (enabled : Bool) :
    Except CppException Bool × Filter :=
  let f := { f with m_pModule := Option.none, m_pFunc := Option.none, m_pythonScript := "" }
  let f := f.setConfig newConfig enabled
  match setScriptName f.config f.m_pythonScript with
  | .error e => (.error e, f)
  | .ok (found, script) =>
    let f := { f with m_pythonScript := script }
    if !found then (.ok false, f.disableFilter)
    else
      match configure engine f with
      | .error e => (.error e, f)
      | .ok (result, f) => (.ok result, f)

/-! ## Sample values -/

/-- Constructor values used in the examples: element `i` gets timestamp `1000 + i`. -/
def sampleDefaults : Nat → ReadingDefaults :=
  fun i => { id := 0, uuid := "generated", timestamp := 1000 + i, userTimestamp := 1000 + i }

/-- A well-formed engine element with all four optional keys. -/
def samplePump : PyObj :=
  .dict [("asset_code", .str "pump"), ("reading", .dict [("rpm", .int 1200), ("temp", .float ⟨7⟩)]),
    ("id", .long 5), ("uuid", .str "u-1"), ("ts", .long 70), ("user_ts", .long 71)]

/-- A well-formed engine element without optional keys. -/
def sampleValve : PyObj :=
  .dict [("asset_code", .str "valve"), ("reading", .dict [("state", .str "open")])]

/-- The reading decoded from `samplePump`. -/
def samplePumpReading : Reading :=
  { assetName := "pump", readingData := [⟨"rpm", .T_INTEGER 1200⟩, ⟨"temp", .T_FLOAT ⟨7⟩⟩],
    id := 5, uuid := "u-1", timestamp := 70, userTimestamp := 71 }

/-- The reading decoded from `sampleValve` as second element of a batch. -/
def sampleValveReading : Reading :=
  { assetName := "valve", readingData := [⟨"state", .T_STRING "open"⟩],
    id := 0, uuid := "generated", timestamp := 1001, userTimestamp := 1001 }

/-- A `toString` that gives a string value unchanged. -/
def bareString : DatapointValue → String
  | .T_STRING s => s
  | .T_INTEGER i => toString i
  | .T_FLOAT f => toString f.bits

/-- A `toString` that puts a string value in double quotes. -/
def quotedString : DatapointValue → String
  | .T_STRING s => "\"" ++ s ++ "\""
  | .T_INTEGER i => toString i
  | .T_FLOAT f => toString f.bits

/-- A reading with two datapoints of the same name. -/
def sampleTwice : Reading :=
  { assetName := "pump", readingData := [⟨"rpm", .T_INTEGER 1⟩, ⟨"rpm", .T_INTEGER 2⟩],
    id := 5, uuid := "u-1", timestamp := 70, userTimestamp := 71 }

/-- A reading without datapoints. -/
def sampleBare : Reading :=
  { assetName := "pump", readingData := [], id := 5, uuid := "u-1", timestamp := 70,
    userTimestamp := 71 }

/-- A reading whose asset name holds a NUL character. -/
def sampleNul : Reading :=
  { assetName := String.mk ['a', Char.ofNat 0, 'b'], readingData := [⟨"rpm", .T_INTEGER 1⟩],
    id := 5, uuid := "u-1", timestamp := 70, userTimestamp := 71 }

/-- A reading with a string value. -/
def sampleText : Reading :=
  { assetName := "valve", readingData := [⟨"state", .T_STRING "open"⟩],
    id := 6, uuid := "u-2", timestamp := 80, userTimestamp := 81 }

/-- A configuration whose `script` item has the given `file` attribute. -/
def sampleConfig (file : String) : ConfigCategory :=
  { items := [("plugin", { value := "python27", file := Option.none }),
              ("script", { value := "", file := some file })] }

/-- A filter instance, not yet configured, whose script name is `script`. -/
def sampleFilter (script : String) : Filter :=
  { config := { items := [("script", { value := "", file := some script })] }, enabled := true,
    m_pModule := Option.none, m_pFunc := Option.none, m_pythonScript := script }

/-- A module for the file `MyCat_script_transform.py`, with the method
`transform`. -/
def transformModule : PyModule :=
  { attrs := [("transform", .callable (fun readings => some readings))] }

/-- An engine that can import `MyCat_script_transform` and nothing else. -/
def transformEngine : Engine :=
  { PyImport_Import := fun name =>
      if name = "MyCat_script_transform" then some transformModule else Option.none }

/-- A module written as the header comment of the source asks: the methods
`set_filter_config` and `readings_filter`. -/
def documentedModule : PyModule :=
  { attrs := [("set_filter_config", .callable (fun _ => some (.bool true))),
              ("readings_filter", .callable (fun readings => some readings))] }

/-- An engine that can import `readings_filter` and nothing else. -/
def documentedEngine : Engine :=
  { PyImport_Import := fun name =>
      if name = "readings_filter" then some documentedModule else Option.none }

/-- A module for the file `MyCat_script_transform.py` whose `set_filter_config`
returns `result`, or raises when `result` is `none`. -/
def configModule (result : Option PyObj) : PyModule :=
  { attrs := [("transform", .callable (fun readings => some readings)),
              ("set_filter_config", .callable (fun _ => result))] }

/-- An engine that can import `MyCat_script_transform`, as `configModule result`. -/
def configEngine (result : Option PyObj) : Engine :=
  { PyImport_Import := fun name =>
      if name = "MyCat_script_transform" then some (configModule result) else Option.none }

/-- A module for the file `MyCat_script_transform.py` whose `transform` is a
number, not a callable. -/
def brokenModule : PyModule :=
  { attrs := [("transform", .object (.int 3))] }

/-- An engine that can import `MyCat_script_transform`, as `brokenModule`. -/
def brokenEngine : Engine :=
  { PyImport_Import := fun name =>
      if name = "MyCat_script_transform" then some brokenModule else Option.none }

/-- A filter instance that is enabled and bound to `transformModule`. -/
def boundFilter : Filter :=
  { config := sampleConfig "MyCat_script_transform.py", enabled := true,
    m_pModule := some transformModule,
    m_pFunc := some (.callable (fun readings => some readings)),
    m_pythonScript := "MyCat_script_transform" }

/-- A configuration without a `script` item. -/
def noScriptConfig : ConfigCategory :=
  { items := [("plugin", { value := "python27", file := Option.none })] }

/-- A filter instance whose script name is unset, with a configuration without
a `script` item. -/
def unsetFilter : Filter :=
  { config := noScriptConfig, enabled := true, m_pModule := Option.none,
    m_pFunc := Option.none, m_pythonScript := "" }

/-- An item `config` whose value is the JSON object with the key `a` and the
value 1. -/
def blobConfigItem : ConfigItem :=
  { value := "\x7b\"a\": 1\x7d", file := Option.none }

/-- A configuration with the item `config`. -/
def blobConfig : ConfigCategory :=
  { items := [("config", blobConfigItem)] }

/-! # Theorems -/

/-! ## Decoding: failure of a batch -/

theorem readElement_malformed (d : ReadingDefaults) (e : PyObj) (h : Malformed e) :
    readElement d e = .null := by
  unfold readElement
  rcases h with h | h | ⟨v, h, hv⟩
  · rw [h]
  · rw [h]; cases PyDict_GetItemString e "asset_code" <;> rfl
  · rw [h]
    cases v <;> first | (simp [PyDict_Check] at hv; done) | (cases PyDict_GetItemString e "asset_code" <;> rfl)

theorem datapointValueOf_unsupported (v : PyObj) (h : Unsupported v) :
    datapointValueOf v = Option.none := by
  obtain ⟨h1, h2, h3, h4⟩ := h
  simp [datapointValueOf, h1, h2, h3, h4]

theorem datapointValueOf_eq_none (v : PyObj) (h : datapointValueOf v = Option.none) :
    Unsupported v := by
  cases v <;>
    simp [datapointValueOf, PyInt_Check, PyLong_Check, PyFloat_Check, PyString_Check,
      PyString_AsString] at h <;>
    exact ⟨rfl, rfl, rfl, rfl⟩

theorem readDatapoints_ne_undefined (d : ReadingDefaults) (e : PyObj) (s : String)
    (entries : PyDict) (cur : Option Reading) (hs : ∀ kv ∈ entries, ¬ Unsupported kv.2) :
    readDatapoints d e (.str s) entries cur ≠ .undefined := by
  induction entries generalizing cur with
  | nil => simp [readDatapoints]
  | cons kv rest ih =>
    obtain ⟨k, v⟩ := kv
    have hrest : ∀ kv ∈ rest, ¬ Unsupported kv.2 := fun x hx => hs x (List.mem_cons_of_mem _ hx)
    unfold readDatapoints
    cases hv : datapointValueOf v with
    | none => exact absurd (datapointValueOf_eq_none v hv) (hs (k, v) (List.mem_cons_self _ _))
    | some dv =>
      cases cur with
      | none => simpa [PyString_AsString] using ih _ hrest
      | some r => simpa using ih _ hrest

theorem readElement_ne_undefined (d : ReadingDefaults) (e : PyObj)
    (h : AssetCodeIsString e ∧ ¬ HasUnsupported e) : readElement d e ≠ .undefined := by
  obtain ⟨h, hu⟩ := h
  unfold readElement
  cases ha : PyDict_GetItemString e "asset_code" with
  | none => simp
  | some a =>
    obtain ⟨s, rfl⟩ := h a ha
    cases hr : PyDict_GetItemString e "reading" with
    | none => simp
    | some r =>
      cases r with
      | dict entries =>
        simp only []
        exact readDatapoints_ne_undefined _ _ _ _ _
          (fun kv hkv hun => hu ⟨entries, hr, kv, hkv, hun⟩)
      | _ => simp

theorem readDatapoints_unsupported (d : ReadingDefaults) (e a : PyObj)
    (entries : PyDict) (cur : Option Reading) (h : ∃ kv ∈ entries, Unsupported kv.2) :
    readDatapoints d e a entries cur = .undefined := by
  induction entries generalizing cur with
  | nil => simp at h
  | cons kv rest ih =>
    obtain ⟨k, v⟩ := kv
    unfold readDatapoints
    cases hv : datapointValueOf v with
    | none => rfl
    | some dv =>
      have hrest : ∃ kv ∈ rest, Unsupported kv.2 := by
        obtain ⟨kv, hmem, hu⟩ := h
        rcases List.mem_cons.mp hmem with rfl | hmem
        · rw [datapointValueOf_unsupported _ hu] at hv; cases hv
        · exact ⟨kv, hmem, hu⟩
      cases cur with
      | none =>
        cases hasset : PyString_AsString a with
        | none => rfl
        | some asset => exact ih _ hrest
      | some r => exact ih _ hrest

theorem readElement_unsupported (d : ReadingDefaults) (e a : PyObj)
    (ha : PyDict_GetItemString e "asset_code" = some a)
    (h : HasUnsupported e) : readElement d e = .undefined := by
  obtain ⟨entries, hr, hu⟩ := h
  unfold readElement
  rw [hr, ha]
  exact readDatapoints_unsupported d e a entries Option.none hu

theorem not_hasUnsupported_of_supported (e : PyObj) (h : SupportedElement e) :
    ¬ HasUnsupported e := by
  obtain ⟨s, entries, _, hr, hs⟩ := h
  rintro ⟨entries', hr', kv, hkv, h1, h2, h3, h4⟩
  rw [hr] at hr'
  cases hr'
  have := hs kv hkv
  simp [Supported, h1, h2, h3, h4] at this

theorem assetCodeIsString_of_supported (e : PyObj) (h : SupportedElement e) :
    AssetCodeIsString e := by
  obtain ⟨s, entries, ha, _, _⟩ := h
  intro v hv
  rw [ha] at hv
  exact ⟨s, (Option.some.inj hv).symm⟩

theorem readElements_null (defaults : Nat → ReadingDefaults) (pre : List PyObj) (m : PyObj)
    (post : List PyObj) (i : Nat)
    (hpre : ∀ e ∈ pre, AssetCodeIsString e ∧ ¬ HasUnsupported e)
    (hm : readElement (defaults (i + pre.length)) m = .null) :
    readElements defaults i (pre ++ m :: post) = .null := by
  induction pre generalizing i with
  | nil =>
    simp only [List.nil_append, readElements]
    simp only [List.length_nil, Nat.add_zero] at hm
    rw [hm]
  | cons e pre ih =>
    have hpre' : ∀ e ∈ pre, AssetCodeIsString e ∧ ¬ HasUnsupported e :=
      fun x hx => hpre x (List.mem_cons_of_mem _ hx)
    have hm' : readElement (defaults (i + 1 + pre.length)) m = .null := by
      rw [← hm]; congr 2; simp; omega
    have hrec := ih (i + 1) hpre' hm'
    simp only [List.cons_append, readElements]
    cases he : readElement (defaults i) e with
    | undefined => exact absurd he (readElement_ne_undefined _ _ (hpre e (List.mem_cons_self _ _)))
    | null => rfl
    | ok r => simp [hrec]

theorem readElements_not_ok (defaults : Nat → ReadingDefaults) (pre : List PyObj) (m : PyObj)
    (post : List PyObj) (i : Nat)
    (hm : ∀ rs, readElement (defaults (i + pre.length)) m ≠ .ok rs) :
    ∀ rs, readElements defaults i (pre ++ m :: post) ≠ .ok rs := by
  induction pre generalizing i with
  | nil =>
    intro rs
    simp only [List.nil_append, readElements]
    simp only [List.length_nil, Nat.add_zero] at hm
    cases he : readElement (defaults i) m with
    | undefined => simp
    | null => simp
    | ok r => exact absurd he (hm r)
  | cons e pre ih =>
    intro rs
    have hm' : ∀ rs, readElement (defaults (i + 1 + pre.length)) m ≠ .ok rs := by
      intro rs h; apply hm rs; rw [← h]; congr 2; simp; omega
    have hrec := ih (i + 1) hm'
    simp only [List.cons_append, readElements]
    cases he : readElement (defaults i) e with
    | undefined => simp
    | null => simp
    | ok r =>
      cases hr : readElements defaults (i + 1) (pre ++ m :: post) with
      | undefined => simp
      | null => simp
      | ok rs' => exact absurd hr (hrec rs')

/-! ## Decoding: the optional keys -/

theorem setOriginalId_fields (e : PyObj) (r : Reading) :
    (setOriginalId e r).assetName = r.assetName ∧
    (setOriginalId e r).readingData = r.readingData ∧
    (setOriginalId e r).uuid = r.uuid ∧
    (setOriginalId e r).timestamp = r.timestamp ∧
    (setOriginalId e r).userTimestamp = r.userTimestamp := by
  unfold setOriginalId
  split
  · split <;> simp [Reading.setId]
  · simp

theorem setOriginalTs_fields (e : PyObj) (r : Reading) :
    (setOriginalTs e r).assetName = r.assetName ∧
    (setOriginalTs e r).readingData = r.readingData ∧
    (setOriginalTs e r).uuid = r.uuid ∧
    (setOriginalTs e r).id = r.id ∧
    (setOriginalTs e r).userTimestamp = r.userTimestamp := by
  unfold setOriginalTs
  split
  · split <;> simp [Reading.setTimestamp]
  · simp

theorem setOriginalUserTs_fields (e : PyObj) (r : Reading) :
    (setOriginalUserTs e r).assetName = r.assetName ∧
    (setOriginalUserTs e r).readingData = r.readingData ∧
    (setOriginalUserTs e r).uuid = r.uuid ∧
    (setOriginalUserTs e r).id = r.id ∧
    (setOriginalUserTs e r).timestamp = r.timestamp := by
  unfold setOriginalUserTs
  split
  · split <;> simp [Reading.setUserTimestamp]
  · simp

theorem setOriginalUuid_fields (e : PyObj) (r : Reading) :
    (setOriginalUuid e r).assetName = r.assetName ∧
    (setOriginalUuid e r).readingData = r.readingData ∧
    (setOriginalUuid e r).id = r.id ∧
    (setOriginalUuid e r).timestamp = r.timestamp ∧
    (setOriginalUuid e r).userTimestamp = r.userTimestamp := by
  unfold setOriginalUuid
  split
  · split
    · split <;> simp [Reading.setUuid]
    · simp
  · simp

theorem setOriginal_assetName (e : PyObj) (r : Reading) :
    (setOriginal e r).assetName = r.assetName := by
  unfold setOriginal
  rw [(setOriginalUuid_fields e _).1, (setOriginalUserTs_fields e _).1,
    (setOriginalTs_fields e _).1, (setOriginalId_fields e _).1]

theorem setOriginal_readingData (e : PyObj) (r : Reading) :
    (setOriginal e r).readingData = r.readingData := by
  unfold setOriginal
  rw [(setOriginalUuid_fields e _).2.1, (setOriginalUserTs_fields e _).2.1,
    (setOriginalTs_fields e _).2.1, (setOriginalId_fields e _).2.1]

theorem setOriginal_id (e : PyObj) (r : Reading) :
    (setOriginal e r).id =
      match PyDict_GetItemString e "id" with
      | some v => if PyLong_Check v then PyLong_AsUnsignedLong v else r.id
      | Option.none => r.id := by
  unfold setOriginal
  rw [(setOriginalUuid_fields e _).2.2.1, (setOriginalUserTs_fields e _).2.2.2.1,
    (setOriginalTs_fields e _).2.2.2.1]
  unfold setOriginalId
  cases h : PyDict_GetItemString e "id" with
  | none => rfl
  | some v => by_cases hv : PyLong_Check v = true <;> simp [hv, Reading.setId]

theorem setOriginal_timestamp (e : PyObj) (r : Reading) :
    (setOriginal e r).timestamp =
      match PyDict_GetItemString e "ts" with
      | some v => if PyLong_Check v then PyLong_AsUnsignedLong v else r.timestamp
      | Option.none => r.timestamp := by
  have h0 : (setOriginalId e r).timestamp = r.timestamp := (setOriginalId_fields e r).2.2.2.1
  unfold setOriginal
  rw [(setOriginalUuid_fields e _).2.2.2.1, (setOriginalUserTs_fields e _).2.2.2.2]
  unfold setOriginalTs
  cases h : PyDict_GetItemString e "ts" with
  | none => simpa using h0
  | some v => by_cases hv : PyLong_Check v = true <;> simp [hv, Reading.setTimestamp, h0]

theorem setOriginal_userTimestamp (e : PyObj) (r : Reading) :
    (setOriginal e r).userTimestamp =
      match PyDict_GetItemString e "user_ts" with
      | some v => if PyLong_Check v then PyLong_AsUnsignedLong v else r.userTimestamp
      | Option.none => r.userTimestamp := by
  have h0 : (setOriginalTs e (setOriginalId e r)).userTimestamp = r.userTimestamp := by
    rw [(setOriginalTs_fields e _).2.2.2.2, (setOriginalId_fields e r).2.2.2.2]
  unfold setOriginal
  rw [(setOriginalUuid_fields e _).2.2.2.2]
  unfold setOriginalUserTs
  cases h : PyDict_GetItemString e "user_ts" with
  | none => simpa using h0
  | some v => by_cases hv : PyLong_Check v = true <;> simp [hv, Reading.setUserTimestamp, h0]

theorem setOriginal_uuid (e : PyObj) (r : Reading) :
    (setOriginal e r).uuid =
      match PyDict_GetItemString e "uuid" with
      | some (PyObj.str s) => cstr s
      | _ => r.uuid := by
  have h0 : (setOriginalUserTs e (setOriginalTs e (setOriginalId e r))).uuid = r.uuid := by
    rw [(setOriginalUserTs_fields e _).2.2.1, (setOriginalTs_fields e _).2.2.1,
      (setOriginalId_fields e r).2.2.1]
  unfold setOriginal setOriginalUuid
  cases hu : PyDict_GetItemString e "uuid" with
  | none => simpa using h0
  | some u => cases u <;> simp [PyString_Check, PyString_AsString, Reading.setUuid, h0]

/-! ### Optional keys that are omitted -/

theorem keepsDefaults_setOriginal (d : ReadingDefaults) (e : PyObj) (r : Reading)
    (h : KeepsDefaults d e r) : KeepsDefaults d e (setOriginal e r) := by
  obtain ⟨h1, h2, h3, h4⟩ := h
  refine ⟨fun hn => ?_, fun hn => ?_, fun hn => ?_, fun hn => ?_⟩
  · rw [setOriginal_id, hn]; exact h1 hn
  · rw [setOriginal_timestamp, hn]; exact h2 hn
  · rw [setOriginal_userTimestamp, hn]; exact h3 hn
  · rw [setOriginal_uuid, hn]; exact h4 hn

theorem keepsDefaults_new (d : ReadingDefaults) (e : PyObj) (a : String) (dp : Datapoint) :
    KeepsDefaults d e (Reading.new d a dp) :=
  ⟨fun _ => rfl, fun _ => rfl, fun _ => rfl, fun _ => rfl⟩

theorem keepsDefaults_addDatapoint (d : ReadingDefaults) (e : PyObj) (r : Reading)
    (dp : Datapoint) (h : KeepsDefaults d e r) : KeepsDefaults d e (r.addDatapoint dp) := h

theorem datapointValueOf_supported (v : PyObj) (h : Supported v) :
    ∃ dv, datapointValueOf v = some dv := by
  cases v <;> simp [Supported, PyInt_Check, PyLong_Check, PyFloat_Check, PyString_Check] at h <;>
    simp [datapointValueOf, PyInt_Check, PyLong_Check, PyFloat_Check, PyString_Check,
      PyString_AsString]

theorem readDatapoints_supported (d : ReadingDefaults) (e : PyObj) (s : String)
    (entries : PyDict) (cur : Option Reading) (hs : ∀ kv ∈ entries, Supported kv.2)
    (hcur : ∀ r, cur = some r → KeepsDefaults d e r) :
    ∃ o, readDatapoints d e (.str s) entries cur = .ok o ∧
      (∀ r, o = some r → KeepsDefaults d e r) ∧
      (o = Option.none ↔ entries = [] ∧ cur = Option.none) := by
  induction entries generalizing cur with
  | nil => exact ⟨cur, rfl, hcur, by simp⟩
  | cons kv rest ih =>
    obtain ⟨k, v⟩ := kv
    obtain ⟨dv, hdv⟩ := datapointValueOf_supported v (hs (k, v) (List.mem_cons_self _ _))
    have hrest : ∀ kv ∈ rest, Supported kv.2 := fun x hx => hs x (List.mem_cons_of_mem _ hx)
    unfold readDatapoints
    rw [hdv]
    cases cur with
    | none =>
      obtain ⟨o, ho, hk, hn⟩ := ih (some (setOriginal e (Reading.new d (cstr s) ⟨cstr k, dv⟩))) hrest
        (by
          intro r hr
          cases hr
          exact keepsDefaults_setOriginal d e _ (keepsDefaults_new d e _ _))
      refine ⟨o, by simpa [PyString_AsString] using ho, hk, ?_⟩
      simp at hn
      simp [hn]
    | some r0 =>
      obtain ⟨o, ho, hk, hn⟩ := ih (some (setOriginal e (r0.addDatapoint ⟨cstr k, dv⟩))) hrest
        (by
          intro r hr
          cases hr
          exact keepsDefaults_setOriginal d e _
            (keepsDefaults_addDatapoint d e _ _ (hcur r0 rfl)))
      refine ⟨o, by simpa using ho, hk, ?_⟩
      simp at hn
      simp [hn]

theorem readElement_supported (d : ReadingDefaults) (e : PyObj) (s : String) (entries : PyDict)
    (ha : PyDict_GetItemString e "asset_code" = some (PyObj.str s))
    (hr : PyDict_GetItemString e "reading" = some (PyObj.dict entries))
    (hs : ∀ kv ∈ entries, Supported kv.2) :
    ∃ o, readElement d e = .ok o ∧ (∀ r, o = some r → KeepsDefaults d e r) ∧
      (o = Option.none ↔ entries = []) := by
  obtain ⟨o, ho, hk, hn⟩ := readDatapoints_supported d e s entries Option.none hs (by simp)
  refine ⟨o, ?_, hk, by simpa using hn⟩
  unfold readElement
  rw [ha, hr]
  exact ho

/-! ## Decoding: order and content of the result -/

theorem readElements_ok (defaults : Nat → ReadingDefaults) (k : Nat) (items : List PyObj)
    (rs : List (Option Reading)) (h : readElements defaults k items = .ok rs) :
    rs.length = items.length ∧
      ∀ i e, items[i]? = some e →
        ∃ o, readElement (defaults (k + i)) e = .ok o ∧ rs[i]? = some o := by
  induction items generalizing k rs with
  | nil =>
    simp only [readElements, Outcome.ok.injEq] at h
    subst h
    simp
  | cons x rest ih =>
    simp only [readElements] at h
    cases hx : readElement (defaults k) x with
    | undefined => simp [hx] at h
    | null => simp [hx] at h
    | ok o =>
      cases hrest : readElements defaults (k + 1) rest with
      | undefined => simp [hx, hrest] at h
      | null => simp [hx, hrest] at h
      | ok rs' =>
        simp only [hx, hrest, Outcome.ok.injEq] at h
        subst h
        obtain ⟨hlen, hidx⟩ := ih (k + 1) rs' hrest
        refine ⟨by simp [hlen], ?_⟩
        intro i e hi
        cases i with
        | zero =>
          simp only [List.getElem?_cons_zero, Option.some.injEq] at hi
          subst hi
          exact ⟨o, by simpa using hx, by simp⟩
        | succ j =>
          simp only [List.getElem?_cons_succ] at hi
          obtain ⟨o', ho', hj⟩ := hidx j e hi
          refine ⟨o', ?_, by simpa using hj⟩
          rw [← ho']; congr 2; omega

theorem readDatapoints_ok_some (d : ReadingDefaults) (e a : PyObj) (entries : PyDict)
    (r0 : Reading) (o : Option Reading)
    (h : readDatapoints d e a entries (some r0) = .ok o) :
    ∃ r, o = some r ∧ r.assetName = r0.assetName ∧
      r.readingData.map some = r0.readingData.map some ++ entries.map entryDatapoint := by
  induction entries generalizing r0 with
  | nil =>
    simp only [readDatapoints, Outcome.ok.injEq] at h
    exact ⟨r0, h.symm, rfl, by simp⟩
  | cons kv rest ih =>
    obtain ⟨k, v⟩ := kv
    unfold readDatapoints at h
    cases hv : datapointValueOf v with
    | none => simp [hv] at h
    | some dv =>
      simp only [hv] at h
      obtain ⟨r, hr, hasset, hdata⟩ := ih _ h
      refine ⟨r, hr, ?_, ?_⟩
      · rw [hasset, setOriginal_assetName]; rfl
      · rw [hdata, setOriginal_readingData]
        simp [Reading.addDatapoint, entryDatapoint, hv]

theorem readDatapoints_ok_none (d : ReadingDefaults) (e a : PyObj) (entries : PyDict)
    (o : Option Reading) (h : readDatapoints d e a entries Option.none = .ok o) :
    (entries = [] ∧ o = Option.none) ∨
      ∃ s r, a = PyObj.str s ∧ o = some r ∧ r.assetName = cstr s ∧
        r.readingData.map some = entries.map entryDatapoint := by
  cases entries with
  | nil =>
    simp only [readDatapoints, Outcome.ok.injEq] at h
    exact Or.inl ⟨rfl, h.symm⟩
  | cons kv rest =>
    obtain ⟨k, v⟩ := kv
    right
    unfold readDatapoints at h
    cases hv : datapointValueOf v with
    | none => simp [hv] at h
    | some dv =>
      simp only [hv] at h
      cases a with
      | str s =>
        simp only [PyString_AsString] at h
        obtain ⟨r, hr, hasset, hdata⟩ := readDatapoints_ok_some d e _ rest _ o h
        refine ⟨s, r, rfl, hr, ?_, ?_⟩
        · rw [hasset, setOriginal_assetName]; rfl
        · rw [hdata, setOriginal_readingData]
          simp [Reading.new, entryDatapoint, hv]
      | _ => simp [PyString_AsString] at h

theorem readElement_ok (d : ReadingDefaults) (e : PyObj) (o : Option Reading)
    (h : readElement d e = .ok o) :
    ∃ a entries, PyDict_GetItemString e "asset_code" = some a ∧
      PyDict_GetItemString e "reading" = some (PyObj.dict entries) ∧
      ((entries = [] ∧ o = Option.none) ∨
        ∃ s r, a = PyObj.str s ∧ o = some r ∧ r.assetName = cstr s ∧
          r.readingData.map some = entries.map entryDatapoint) := by
  unfold readElement at h
  cases ha : PyDict_GetItemString e "asset_code" with
  | none => simp [ha] at h
  | some a =>
    cases hr : PyDict_GetItemString e "reading" with
    | none => simp [ha, hr] at h
    | some rd =>
      cases rd with
      | dict entries =>
        simp only [ha, hr] at h
        exact ⟨a, entries, rfl, rfl, readDatapoints_ok_none d e a entries o h⟩
      | _ => simp [ha, hr] at h

/-! ## Claims on decoding -/

theorem readElement_not_ok_of_unsupported (d : ReadingDefaults) (e : PyObj)
    (h : HasUnsupported e) : ∀ o, readElement d e ≠ .ok o := by
  intro o ho
  obtain ⟨entries, hr, kv, hmem, hu⟩ := h
  obtain ⟨a, entries', _, hr', hcases⟩ := readElement_ok d e o ho
  rw [hr] at hr'
  cases hr'
  rcases hcases with ⟨hnil, _⟩ | ⟨s, r, _, _, _, hdata⟩
  · subst hnil; simp at hmem
  · have hin : entryDatapoint kv ∈ entries.map entryDatapoint := List.mem_map_of_mem _ hmem
    rw [← hdata] at hin
    simp [entryDatapoint, datapointValueOf_unsupported _ hu] at hin

theorem readElements_supported (defaults : Nat → ReadingDefaults) (k : Nat) (items : List PyObj)
    (h : ∀ e ∈ items, SupportedElement e) : ∃ rs, readElements defaults k items = .ok rs := by
  induction items generalizing k with
  | nil => exact ⟨[], rfl⟩
  | cons x rest ih =>
    obtain ⟨s, entries, ha, hr, hs⟩ := h x (List.mem_cons_self _ _)
    obtain ⟨o, ho, _, _⟩ := readElement_supported (defaults k) x s entries ha hr hs
    obtain ⟨rs, hrs⟩ := ih (k + 1) (fun e he => h e (List.mem_cons_of_mem _ he))
    exact ⟨o :: rs, by simp [readElements, ho, hrs]⟩

theorem readElements_undefined (defaults : Nat → ReadingDefaults) (pre : List PyObj) (m : PyObj)
    (post : List PyObj) (i : Nat) (hpre : ∀ e ∈ pre, SupportedElement e)
    (hm : readElement (defaults (i + pre.length)) m = .undefined) :
    readElements defaults i (pre ++ m :: post) = .undefined := by
  induction pre generalizing i with
  | nil =>
    simp only [List.nil_append, readElements]
    simp only [List.length_nil, Nat.add_zero] at hm
    rw [hm]
  | cons e pre ih =>
    have hm' : readElement (defaults (i + 1 + pre.length)) m = .undefined := by
      rw [← hm]; congr 2; simp; omega
    have hrec := ih (i + 1) (fun x hx => hpre x (List.mem_cons_of_mem _ hx)) hm'
    obtain ⟨s, entries, ha, hr, hs⟩ := hpre e (List.mem_cons_self _ _)
    obtain ⟨o, ho, _, _⟩ := readElement_supported (defaults i) e s entries ha hr hs
    have hrec' : readElements defaults (i + 1) (pre.append (m :: post)) = .undefined := hrec
    simp only [List.cons_append, readElements, ho, hrec']

theorem samplePump_supported : SupportedElement samplePump :=
  ⟨"pump", _, rfl, rfl, by
    intro kv hkv
    simp only [List.mem_cons, List.mem_singleton, List.not_mem_nil, or_false] at hkv
    rcases hkv with rfl | rfl <;> rfl⟩

theorem sampleValve_supported : SupportedElement sampleValve :=
  ⟨"valve", _, rfl, rfl, by
    intro kv hkv
    simp only [List.mem_singleton] at hkv
    subst hkv
    rfl⟩

/-- C2: a batch that holds an element without `asset_code`, without `reading`, or
with a `reading` that is no mapping never yields a result list, and
`getFilteredReadings` returns NULL for it whatever follows that element and
whatever elements stand in front of it, as long as those have a string
`asset_code` and no value of an unsupported type, so that the loop reaches the
element. -/
theorem C2_malformed_element_drops_batch (defaults : Nat → ReadingDefaults)
    (pre : List PyObj) (m : PyObj) (post : List PyObj) (hm : Malformed m) :
    (∀ rs, getFilteredReadings defaults (.list (pre ++ m :: post)) ≠ .ok rs) ∧
    ((∀ e ∈ pre, AssetCodeIsString e ∧ ¬ HasUnsupported e) →
      getFilteredReadings defaults (.list (pre ++ m :: post)) = .null) := by
  constructor
  · exact readElements_not_ok defaults pre m post 0
      (fun o => by rw [readElement_malformed _ m hm]; simp)
  · intro hpre
    exact readElements_null defaults pre m post 0 hpre (readElement_malformed _ m hm)

/-- C2, at a batch of two well-formed elements, one without `asset_code`, and one
more well-formed element. -/
theorem C2_malformed_element_drops_batch_witness :
    Malformed (PyObj.dict [("reading", .dict [("rpm", .int 1)])]) ∧
    getFilteredReadings sampleDefaults
      (.list ([samplePump, sampleValve] ++
        PyObj.dict [("reading", .dict [("rpm", .int 1)])] :: [samplePump])) = .null :=
  ⟨Or.inl rfl,
   (C2_malformed_element_drops_batch sampleDefaults [samplePump, sampleValve]
      (PyObj.dict [("reading", .dict [("rpm", .int 1)])]) [samplePump] (Or.inl rfl)).2
      (by
        intro e he
        simp only [List.mem_cons, List.mem_singleton, List.not_mem_nil, or_false] at he
        rcases he with rfl | rfl
        · exact ⟨assetCodeIsString_of_supported _ samplePump_supported,
            not_hasUnsupported_of_supported _ samplePump_supported⟩
        · exact ⟨assetCodeIsString_of_supported _ sampleValve_supported,
            not_hasUnsupported_of_supported _ sampleValve_supported⟩)⟩

/-- C3: a batch that holds an element whose `reading` mapping has a value that is
neither integer, long, float nor string never yields a result list. When that
element has an `asset_code` and the elements in front of it decode, the call
does not reach its `return NULL` in a defined state either: it first deletes
the pointer `dataPoint`, which was never assigned, so the outcome is undefined
and not NULL. -/
theorem C3_unsupported_value_is_undefined (defaults : Nat → ReadingDefaults)
    (pre : List PyObj) (m : PyObj) (post : List PyObj) (hm : HasUnsupported m) :
    (∀ rs, getFilteredReadings defaults (.list (pre ++ m :: post)) ≠ .ok rs) ∧
    (∀ a, PyDict_GetItemString m "asset_code" = some a → (∀ e ∈ pre, SupportedElement e) →
      getFilteredReadings defaults (.list (pre ++ m :: post)) = .undefined ∧
      getFilteredReadings defaults (.list (pre ++ m :: post)) ≠ .null) := by
  constructor
  · exact readElements_not_ok defaults pre m post 0
      (fun o => readElement_not_ok_of_unsupported _ m hm o)
  · intro a ha hpre
    have h : getFilteredReadings defaults (.list (pre ++ m :: post)) = .undefined :=
      readElements_undefined defaults pre m post 0 hpre (readElement_unsupported _ m a ha hm)
    exact ⟨h, by rw [h]; simp⟩

/-- C3, at a batch whose second element holds `None` behind a supported value,
and at a batch of one element whose only value is `None`. -/
theorem C3_unsupported_value_is_undefined_witness :
    HasUnsupported (PyObj.dict [("asset_code", .str "tank"),
      ("reading", .dict [("level", .int 3), ("alarm", .none)])]) ∧
    getFilteredReadings sampleDefaults
      (.list ([samplePump] ++
        PyObj.dict [("asset_code", .str "tank"),
          ("reading", .dict [("level", .int 3), ("alarm", .none)])] :: [sampleValve]))
      = .undefined ∧
    getFilteredReadings sampleDefaults
      (.list [PyObj.dict [("asset_code", .str "tank"), ("reading", .dict [("alarm", .none)])]])
      = .undefined :=
  ⟨⟨[("level", .int 3), ("alarm", .none)], rfl, ("alarm", .none), by simp,
      ⟨rfl, rfl, rfl, rfl⟩⟩,
   ((C3_unsupported_value_is_undefined sampleDefaults [samplePump]
      (PyObj.dict [("asset_code", .str "tank"),
        ("reading", .dict [("level", .int 3), ("alarm", .none)])]) [sampleValve]
      ⟨[("level", .int 3), ("alarm", .none)], rfl, ("alarm", .none), by simp,
        ⟨rfl, rfl, rfl, rfl⟩⟩).2 (.str "tank") rfl
      (by
        intro e he
        simp only [List.mem_singleton] at he
        subst he
        exact samplePump_supported)).1,
   rfl⟩

/-- C4: for an element whose `reading` mapping is empty `getFilteredReadings` does
not fail: it returns a list whose entry for that element is a NULL reading. -/
theorem C4_empty_reading_gives_null_entry (defaults : Nat → ReadingDefaults) (asset : String) :
    getFilteredReadings defaults
      (.list [.dict [("asset_code", .str asset), ("reading", .dict [])]]) = .ok [Option.none] :=
  rfl

/-- C5: plain integers under `id`, `ts` and `user_ts` leave the three fields at
the values of the constructor, although a plain integer is taken as an integer
datapoint in the same element; the same values given as longs override them. -/
theorem C5_plain_int_keys_are_ignored (defaults : Nat → ReadingDefaults) :
    getFilteredReadings defaults
      (.list [.dict [("asset_code", .str "pump"), ("reading", .dict [("rpm", .int 1200)]),
        ("id", .int 5), ("ts", .int 70), ("user_ts", .int 71)]]) =
      .ok [some { assetName := "pump", readingData := [⟨"rpm", .T_INTEGER 1200⟩],
                  id := (defaults 0).id, uuid := (defaults 0).uuid,
                  timestamp := (defaults 0).timestamp,
                  userTimestamp := (defaults 0).userTimestamp }] ∧
    getFilteredReadings defaults
      (.list [.dict [("asset_code", .str "pump"), ("reading", .dict [("rpm", .int 1200)]),
        ("id", .long 5), ("ts", .long 70), ("user_ts", .long 71)]]) =
      .ok [some { assetName := "pump", readingData := [⟨"rpm", .T_INTEGER 1200⟩],
                  id := 5, uuid := (defaults 0).uuid, timestamp := 70, userTimestamp := 71 }] :=
  ⟨rfl, rfl⟩

/-- C6: for a batch whose elements each have a string `asset_code` and a `reading`
mapping of supported values, `getFilteredReadings` returns a list with one entry
per element; in every reading of that list each field whose key (`id`, `ts`,
`user_ts`, `uuid`) the element omits has the value the `Reading` constructor
gave it, and the entry is a reading unless the `reading` mapping is empty. -/
theorem C6_omitted_keys_keep_defaults (defaults : Nat → ReadingDefaults) (items : List PyObj)
    (h : ∀ e ∈ items, SupportedElement e) :
    ∃ rs, getFilteredReadings defaults (.list items) = .ok rs ∧ rs.length = items.length ∧
      ∀ (i : Nat) (e : PyObj) (o : Option Reading), items[i]? = some e → rs[i]? = some o →
        (∀ r, o = some r → KeepsDefaults (defaults i) e r) ∧
        (o = Option.none ↔ PyDict_GetItemString e "reading" = some (PyObj.dict [])) := by
  obtain ⟨rs, hrs⟩ := readElements_supported defaults 0 items h
  obtain ⟨hlen, hidx⟩ := readElements_ok defaults 0 items rs hrs
  refine ⟨rs, hrs, hlen, ?_⟩
  intro i e o hi ho
  obtain ⟨o', ho', hrs'⟩ := hidx i e hi
  rw [ho] at hrs'
  cases hrs'
  rw [Nat.zero_add] at ho'
  obtain ⟨s, entries, ha, hr, hs⟩ := h e (List.getElem?_mem hi)
  obtain ⟨o'', ho'', hk, hn⟩ := readElement_supported (defaults i) e s entries ha hr hs
  rw [ho'] at ho''
  cases ho''
  refine ⟨hk, ?_⟩
  rw [hn, hr]
  constructor
  · intro h0; rw [h0]
  · intro h0; cases h0; rfl

/-- C6, at a batch of an element with all optional keys and one with none. -/
theorem C6_omitted_keys_keep_defaults_witness :
    (∀ e ∈ [samplePump, sampleValve], SupportedElement e) ∧
    ∃ rs, getFilteredReadings sampleDefaults (.list [samplePump, sampleValve]) = .ok rs ∧
      rs.length = [samplePump, sampleValve].length ∧
      ∀ (i : Nat) (e : PyObj) (o : Option Reading),
        [samplePump, sampleValve][i]? = some e → rs[i]? = some o →
        (∀ r, o = some r → KeepsDefaults (sampleDefaults i) e r) ∧
        (o = Option.none ↔ PyDict_GetItemString e "reading" = some (PyObj.dict [])) :=
  have hs : ∀ e ∈ [samplePump, sampleValve], SupportedElement e := by
    intro e he
    simp only [List.mem_cons, List.mem_singleton, List.not_mem_nil, or_false] at he
    rcases he with rfl | rfl
    · exact ⟨"pump", [("rpm", .int 1200), ("temp", .float ⟨7⟩)], rfl, rfl, by
        intro kv hkv
        simp only [List.mem_cons, List.mem_singleton, List.not_mem_nil, or_false] at hkv
        rcases hkv with rfl | rfl <;> rfl⟩
    · exact ⟨"valve", [("state", .str "open")], rfl, rfl, by
        intro kv hkv
        simp only [List.mem_singleton] at hkv
        subst hkv
        rfl⟩
  ⟨hs, C6_omitted_keys_keep_defaults sampleDefaults [samplePump, sampleValve] hs⟩

/-- C7: when `getFilteredReadings` returns a list for a batch of `n` elements, the
list has `n` entries; entry `i` is what the loop body makes of element `i` and
of the constructor values of that step alone; an entry that is a reading has
the C string of the element's `asset_code` as asset name and one datapoint per
entry of the element's `reading` mapping, in the order the engine visits them;
and a second batch that also decodes and has the same element at index `i`
gives the same entry at index `i`. -/
theorem C7_result_follows_elements (defaults : Nat → ReadingDefaults) (items : List PyObj)
    (rs : List (Option Reading)) (h : getFilteredReadings defaults (.list items) = .ok rs) :
    rs.length = items.length ∧
    (∀ (i : Nat) (e : PyObj), items[i]? = some e →
      ∃ o, readElement (defaults i) e = .ok o ∧ rs[i]? = some o) ∧
    (∀ (i : Nat) (e : PyObj) (r : Reading), items[i]? = some e → rs[i]? = some (some r) →
      ∃ s entries, PyDict_GetItemString e "asset_code" = some (PyObj.str s) ∧
        PyDict_GetItemString e "reading" = some (PyObj.dict entries) ∧
        r.assetName = cstr s ∧ r.readingData.map some = entries.map entryDatapoint) ∧
    (∀ items' rs', getFilteredReadings defaults (.list items') = .ok rs' →
      ∀ i : Nat, items'[i]? = items[i]? → rs'[i]? = rs[i]?) := by
  obtain ⟨hlen, hidx⟩ := readElements_ok defaults 0 items rs h
  have hidx0 : ∀ (i : Nat) (e : PyObj), items[i]? = some e →
      ∃ o, readElement (defaults i) e = .ok o ∧ rs[i]? = some o := by
    intro i e hi
    simpa using hidx i e hi
  refine ⟨hlen, hidx0, ?_, ?_⟩
  · intro i e r hi hr
    obtain ⟨o, ho, hro⟩ := hidx0 i e hi
    rw [hr] at hro
    cases hro
    obtain ⟨a, entries, ha, hrd, hcases⟩ := readElement_ok (defaults i) e (some r) ho
    rcases hcases with ⟨_, hnone⟩ | ⟨s, r', hs, hr', hasset, hdata⟩
    · cases hnone
    · cases hr'
      subst hs
      exact ⟨s, entries, ha, hrd, hasset, hdata⟩
  · intro items' rs' h' i hi
    obtain ⟨hlen', hidx'⟩ := readElements_ok defaults 0 items' rs' h'
    cases hitem : items[i]? with
    | none =>
      rw [hitem] at hi
      have h1 : items.length ≤ i := List.getElem?_eq_none_iff.mp hitem
      have h2 : items'.length ≤ i := List.getElem?_eq_none_iff.mp hi
      rw [List.getElem?_eq_none_iff.mpr (by omega), List.getElem?_eq_none_iff.mpr (by omega)]
    | some e =>
      rw [hitem] at hi
      obtain ⟨o, ho, hro⟩ := hidx0 i e hitem
      obtain ⟨o', ho', hro'⟩ := hidx' i e hi
      rw [Nat.zero_add, ho] at ho'
      cases ho'
      rw [hro, hro']

/-- C7, at a batch of two elements. -/
theorem C7_result_follows_elements_witness :
    getFilteredReadings sampleDefaults (.list [samplePump, sampleValve]) =
      .ok [some samplePumpReading, some sampleValveReading] ∧
    [some samplePumpReading, some sampleValveReading].length =
      [samplePump, sampleValve].length :=
  ⟨rfl, (C7_result_follows_elements sampleDefaults [samplePump, sampleValve]
    [some samplePumpReading, some sampleValveReading] rfl).1⟩

/-! ## Encoding -/

theorem createReadingsList_fold (f : Reading → PyObj) (rs : List Reading) (acc : List PyObj) :
    rs.foldl (fun readingsList r => readingsList ++ [f r]) acc = acc ++ rs.map f := by
  induction rs generalizing acc with
  | nil => simp
  | cons r rest ih => simp [ih]

theorem createReadingsList_eq_map (vts : DatapointValue → String) (rs : List Reading) :
    createReadingsList vts rs = .list (rs.map (readingObject vts)) := by
  unfold createReadingsList
  rw [createReadingsList_fold]
  rfl

theorem readingObject_entries (vts : DatapointValue → String) (r : Reading) :
    readingObject vts r =
      .dict [("reading", .dict (newDataPoints vts r.readingData)),
             ("asset_code", .str (cstr r.assetName)),
             ("id", .long (r.id : Int)),
             ("uuid", .str (cstr r.uuid)),
             ("ts", .long (r.timestamp : Int)),
             ("user_ts", .long (r.userTimestamp : Int))] := rfl

theorem PyDict.get_set_same (d : PyDict) (k : String) (v : PyObj) :
    PyDict.get (PyDict.set d k v) k = some v := by
  induction d with
  | nil => simp [PyDict.set, PyDict.get]
  | cons kv rest ih =>
    obtain ⟨k0, v0⟩ := kv
    by_cases h : k0 = k
    · simp [PyDict.set, PyDict.get, h]
    · simp [PyDict.set, PyDict.get, h, ih]

theorem PyDict.get_set_other (d : PyDict) (k k' : String) (v : PyObj) (hne : k ≠ k') :
    PyDict.get (PyDict.set d k v) k' = PyDict.get d k' := by
  induction d with
  | nil => simp [PyDict.set, PyDict.get, hne]
  | cons kv rest ih =>
    obtain ⟨k0, v0⟩ := kv
    by_cases h : k0 = k
    · subst h
      simp [PyDict.set, PyDict.get, hne]
    · by_cases h' : k0 = k'
      · subst h'
        simp [PyDict.set, PyDict.get, h]
      · simp [PyDict.set, PyDict.get, h, h', ih]

theorem PyDict.set_of_not_mem (d : PyDict) (k : String) (v : PyObj)
    (h : k ∉ d.map Prod.fst) : PyDict.set d k v = d ++ [(k, v)] := by
  induction d with
  | nil => rfl
  | cons kv rest ih =>
    obtain ⟨k0, v0⟩ := kv
    simp only [List.map_cons, List.mem_cons, not_or] at h
    have h0 : k0 ≠ k := fun e => h.1 e.symm
    simp [PyDict.set, h0, ih h.2]

theorem newDataPoints_fold_get_last (vts : DatapointValue → String) (d : PyDict)
    (post : List Datapoint) (k : String) (h : ∀ q ∈ post, cstr q.name ≠ k) :
    PyDict.get (post.foldl
      (fun d dp => PyDict_SetItemString d dp.name (datapointToPy vts dp.data)) d) k =
      PyDict.get d k := by
  induction post generalizing d with
  | nil => rfl
  | cons q rest ih =>
    simp only [List.foldl_cons]
    rw [ih _ (fun x hx => h x (List.mem_cons_of_mem _ hx))]
    exact PyDict.get_set_other d _ k _ (h q (List.mem_cons_self _ _))

theorem newDataPoints_get_last (vts : DatapointValue → String) (pre : List Datapoint)
    (dp : Datapoint) (post : List Datapoint) (h : ∀ q ∈ post, cstr q.name ≠ cstr dp.name) :
    PyDict.get (newDataPoints vts (pre ++ dp :: post)) (cstr dp.name) =
      some (datapointToPy vts dp.data) := by
  unfold newDataPoints
  rw [List.foldl_append, List.foldl_cons, newDataPoints_fold_get_last vts _ post _ h]
  exact PyDict.get_set_same _ _ _

theorem newDataPoints_fold_keys (vts : DatapointValue → String) (d : PyDict)
    (dps : List Datapoint) (k : String) :
    (PyDict.get (dps.foldl
      (fun d dp => PyDict_SetItemString d dp.name (datapointToPy vts dp.data)) d) k).isSome ↔
      (PyDict.get d k).isSome ∨ ∃ dp ∈ dps, cstr dp.name = k := by
  induction dps generalizing d with
  | nil => simp
  | cons q rest ih =>
    simp only [List.foldl_cons]
    rw [ih]
    by_cases hq : cstr q.name = k
    · subst hq
      simp [PyDict_SetItemString, PyDict.get_set_same]
    · rw [PyDict_SetItemString, PyDict.get_set_other _ _ _ _ hq]
      simp [hq]

theorem newDataPoints_keys (vts : DatapointValue → String) (dps : List Datapoint) (k : String) :
    (PyDict.get (newDataPoints vts dps) k).isSome ↔ ∃ dp ∈ dps, cstr dp.name = k := by
  unfold newDataPoints
  rw [newDataPoints_fold_keys]
  simp [PyDict.get]

/-- C8: `createReadingsList` returns a list with one dictionary per reading, in the
order of the input; the dictionary of a reading has exactly the six keys
`reading`, `asset_code`, `id`, `uuid`, `ts`, `user_ts`, with the asset name and
the uuid as C strings and the three numbers as engine longs; the keys of
`reading` are the C strings of the datapoint names, each mapped to the value
built from the last datapoint of that name: an engine integer for an integer
value, an engine float for a float value, else the C string of its string
representation. -/
theorem C8_createReadingsList_shape (vts : DatapointValue → String) (rs : List Reading) :
    ∃ items, createReadingsList vts rs = .list items ∧ items.length = rs.length ∧
      (∀ (i : Nat) (r : Reading), rs[i]? = some r →
        ∃ entries nd, items[i]? = some (PyObj.dict entries) ∧ entries.length = 6 ∧
          (∀ k, (PyDict.get entries k).isSome ↔
            k ∈ ["reading", "asset_code", "id", "uuid", "ts", "user_ts"]) ∧
          PyDict.get entries "asset_code" = some (PyObj.str (cstr r.assetName)) ∧
          PyDict.get entries "id" = some (PyObj.long (r.id : Int)) ∧
          PyDict.get entries "uuid" = some (PyObj.str (cstr r.uuid)) ∧
          PyDict.get entries "ts" = some (PyObj.long (r.timestamp : Int)) ∧
          PyDict.get entries "user_ts" = some (PyObj.long (r.userTimestamp : Int)) ∧
          PyDict.get entries "reading" = some (PyObj.dict nd) ∧
          (∀ k, (PyDict.get nd k).isSome ↔ ∃ dp ∈ r.readingData, cstr dp.name = k) ∧
          (∀ pre dp post, r.readingData = pre ++ dp :: post →
            (∀ q ∈ post, cstr q.name ≠ cstr dp.name) →
            PyDict.get nd (cstr dp.name) = some (datapointToPy vts dp.data))) ∧
      (∀ i, datapointToPy vts (.T_INTEGER i) = PyObj.int i) ∧
      (∀ f, datapointToPy vts (.T_FLOAT f) = PyObj.float f) ∧
      (∀ s, datapointToPy vts (.T_STRING s) = PyObj.str (cstr (vts (.T_STRING s)))) := by
  refine ⟨rs.map (readingObject vts), createReadingsList_eq_map vts rs, by simp, ?_,
    fun _ => rfl, fun _ => rfl, fun _ => rfl⟩
  intro i r hi
  refine ⟨[("reading", .dict (newDataPoints vts r.readingData)),
      ("asset_code", .str (cstr r.assetName)), ("id", .long (r.id : Int)),
      ("uuid", .str (cstr r.uuid)), ("ts", .long (r.timestamp : Int)),
      ("user_ts", .long (r.userTimestamp : Int))],
    newDataPoints vts r.readingData, ?_, rfl, ?_, rfl, rfl, rfl, rfl, rfl, rfl,
    newDataPoints_keys vts r.readingData, ?_⟩
  · rw [List.getElem?_map, hi, Option.map_some', readingObject_entries]
  · intro k
    simp only [PyDict.get]
    by_cases h1 : "reading" = k
    · subst h1; simp
    by_cases h2 : "asset_code" = k
    · subst h2; simp
    by_cases h3 : "id" = k
    · subst h3; simp
    by_cases h4 : "uuid" = k
    · subst h4; simp
    by_cases h5 : "ts" = k
    · subst h5; simp
    by_cases h6 : "user_ts" = k
    · subst h6; simp
    simp [h1, h2, h3, h4, h5, h6, PyDict.get, eq_comm]
    exact ⟨Ne.symm h1, Ne.symm h2, Ne.symm h3, Ne.symm h4, Ne.symm h5, Ne.symm h6⟩
  · intro pre dp post hdata hpost
    rw [hdata]
    exact newDataPoints_get_last vts pre dp post hpost

/-! ## Round trip -/

theorem cstr_of_nulFree (s : String) (h : NulFree s) : cstr s = s := by
  unfold cstr
  have : s.data.takeWhile (fun c => decide (c ≠ Char.ofNat 0)) = s.data := by
    rw [List.takeWhile_eq_self_iff]
    intro c hc
    simp only [ne_eq, decide_not, Bool.not_eq_eq_eq_not, Bool.not_true, decide_eq_false_iff_not]
    intro h0
    exact h (h0 ▸ hc)
  rw [this]

theorem toLong_mask (i : Int) (h1 : -(2 ^ 63 : Int) ≤ i) (h2 : i < 2 ^ 63) :
    toLong (PyInt_AsUnsignedLongMask (.int i)) = i := by
  unfold toLong PyInt_AsUnsignedLongMask PyObj.intValue two64
  simp only []
  split <;> omega

theorem PyLong_AsUnsignedLong_long (n : Nat) (h : n < two64) :
    PyLong_AsUnsignedLong (.long (n : Int)) = n := by
  unfold PyLong_AsUnsignedLong PyObj.intValue
  simp only []
  rw [if_pos]
  · simp
  · exact ⟨Int.ofNat_nonneg n, by exact_mod_cast h⟩

theorem datapointValueOf_datapointToPy (vts : DatapointValue → String) (v : DatapointValue)
    (hvts : ∀ s, v = .T_STRING s → vts (.T_STRING s) = s)
    (hint : ∀ i, v = .T_INTEGER i → -(2 ^ 63 : Int) ≤ i ∧ i < 2 ^ 63)
    (hstr : ∀ s, v = .T_STRING s → NulFree s) :
    datapointValueOf (datapointToPy vts v) = some v := by
  cases v with
  | T_INTEGER i =>
    obtain ⟨h1, h2⟩ := hint i rfl
    simp [datapointToPy, PyInt_FromLong, datapointValueOf, PyInt_Check, toLong_mask i h1 h2]
  | T_FLOAT f =>
    simp [datapointToPy, PyFloat_FromDouble, datapointValueOf, PyInt_Check, PyLong_Check,
      PyFloat_Check, PyFloat_AS_DOUBLE]
  | T_STRING s =>
    have hs := cstr_of_nulFree s (hstr s rfl)
    have hk := hvts s rfl
    simp [datapointToPy, PyString_FromString, datapointValueOf, PyInt_Check, PyLong_Check,
      PyFloat_Check, PyString_Check, PyString_AsString, hk, hs]

theorem newDataPoints_fold_distinct (vts : DatapointValue → String) (d : PyDict)
    (dps : List Datapoint) (hnul : ∀ dp ∈ dps, NulFree dp.name)
    (hnodup : (dps.map Datapoint.name).Nodup)
    (hdisj : ∀ dp ∈ dps, dp.name ∉ d.map Prod.fst) :
    dps.foldl (fun d dp => PyDict_SetItemString d dp.name (datapointToPy vts dp.data)) d =
      d ++ dps.map (fun dp => (dp.name, datapointToPy vts dp.data)) := by
  induction dps generalizing d with
  | nil => simp
  | cons q rest ih =>
    simp only [List.map_cons, List.nodup_cons] at hnodup
    have hq : cstr q.name = q.name := cstr_of_nulFree _ (hnul q (List.mem_cons_self _ _))
    have hset : PyDict_SetItemString d q.name (datapointToPy vts q.data) =
        d ++ [(q.name, datapointToPy vts q.data)] := by
      unfold PyDict_SetItemString
      rw [hq]
      exact PyDict.set_of_not_mem d _ _ (hdisj q (List.mem_cons_self _ _))
    simp only [List.foldl_cons, hset]
    rw [ih _ (fun x hx => hnul x (List.mem_cons_of_mem _ hx)) hnodup.2]
    · simp
    · intro x hx
      simp only [List.map_append, List.map_cons, List.map_nil, List.mem_append,
        List.mem_singleton, not_or]
      refine ⟨hdisj x (List.mem_cons_of_mem _ hx), ?_⟩
      intro hxq
      exact hnodup.1 (hxq ▸ List.mem_map_of_mem Datapoint.name hx)

theorem newDataPoints_distinct (vts : DatapointValue → String) (r : Reading)
    (hnul : r.NulFree) (hd : r.DistinctNames) :
    newDataPoints vts r.readingData =
      r.readingData.map (fun dp => (dp.name, datapointToPy vts dp.data)) := by
  unfold newDataPoints
  rw [newDataPoints_fold_distinct vts [] r.readingData (fun dp h => (hnul.2.2 dp h).1) hd
    (by simp)]
  simp

theorem setOriginal_readingObject (vts : DatapointValue → String) (r : Reading)
    (hr : r.InRange) (hnul : r.NulFree) (x : Reading) :
    setOriginal (readingObject vts r) x =
      { assetName := x.assetName, readingData := x.readingData, id := r.id, uuid := r.uuid,
        timestamp := r.timestamp, userTimestamp := r.userTimestamp } := by
  have h1 : PyDict_GetItemString (readingObject vts r) "id" = some (.long (r.id : Int)) := rfl
  have h2 : PyDict_GetItemString (readingObject vts r) "ts" =
      some (.long (r.timestamp : Int)) := rfl
  have h3 : PyDict_GetItemString (readingObject vts r) "user_ts" =
      some (.long (r.userTimestamp : Int)) := rfl
  have h4 : PyDict_GetItemString (readingObject vts r) "uuid" = some (.str (cstr r.uuid)) := rfl
  have e1 := setOriginal_id (readingObject vts r) x
  have e2 := setOriginal_timestamp (readingObject vts r) x
  have e3 := setOriginal_userTimestamp (readingObject vts r) x
  have e4 := setOriginal_uuid (readingObject vts r) x
  have e5 := setOriginal_assetName (readingObject vts r) x
  have e6 := setOriginal_readingData (readingObject vts r) x
  rw [h1] at e1
  rw [h2] at e2
  rw [h3] at e3
  rw [h4] at e4
  simp only [PyLong_Check, if_true, PyLong_AsUnsignedLong_long _ hr.1] at e1
  simp only [PyLong_Check, if_true, PyLong_AsUnsignedLong_long _ hr.2.1] at e2
  simp only [PyLong_Check, if_true, PyLong_AsUnsignedLong_long _ hr.2.2.1] at e3
  simp only [cstr_of_nulFree _ hnul.2.1] at e4
  generalize setOriginal (readingObject vts r) x = y at *
  cases y
  simp_all

theorem readDatapoints_readingObject (vts : DatapointValue → String)
    (d : ReadingDefaults) (r : Reading) (hvts : r.StringsKept vts)
    (hr : r.InRange) (hnul : r.NulFree) (a : PyObj) (asset : String) (done : List Datapoint)
    (dps : List Datapoint) (hsub : ∀ dp ∈ dps, dp ∈ r.readingData) :
    readDatapoints d (readingObject vts r) a
        (dps.map (fun dp => (dp.name, datapointToPy vts dp.data)))
        (some { assetName := asset, readingData := done, id := r.id, uuid := r.uuid,
                timestamp := r.timestamp, userTimestamp := r.userTimestamp }) =
      .ok (some { assetName := asset, readingData := done ++ dps, id := r.id, uuid := r.uuid,
                  timestamp := r.timestamp, userTimestamp := r.userTimestamp }) := by
  induction dps generalizing done with
  | nil => simp [readDatapoints]
  | cons q rest ih =>
    have hq := hsub q (List.mem_cons_self _ _)
    have hv : datapointValueOf (datapointToPy vts q.data) = some q.data :=
      datapointValueOf_datapointToPy vts q.data (fun s hs => hvts q hq s hs)
        (fun i hi => hr.2.2.2 q hq i hi) (fun s hs => (hnul.2.2 q hq).2 s hs)
    have hname : cstr q.name = q.name := cstr_of_nulFree _ (hnul.2.2 q hq).1
    simp only [List.map_cons]
    unfold readDatapoints
    simp only [hv, hname, setOriginal_readingObject vts r hr hnul, Reading.addDatapoint]
    rw [ih (done ++ [q]) (fun x hx => hsub x (List.mem_cons_of_mem _ hx))]
    simp

theorem readElement_readingObject (vts : DatapointValue → String)
    (d : ReadingDefaults) (r : Reading) (hvts : r.StringsKept vts)
    (hr : r.InRange) (hnul : r.NulFree) (hd : r.DistinctNames) (hne : r.readingData ≠ []) :
    readElement d (readingObject vts r) = .ok (some r) := by
  have ha : PyDict_GetItemString (readingObject vts r) "asset_code" =
      some (.str (cstr r.assetName)) := rfl
  have hrd : PyDict_GetItemString (readingObject vts r) "reading" =
      some (.dict (newDataPoints vts r.readingData)) := rfl
  unfold readElement
  rw [ha, hrd, newDataPoints_distinct vts r hnul hd]
  simp only []
  obtain ⟨asset, dps, id, uuid, ts, uts⟩ := r
  cases dps with
  | nil => exact absurd rfl hne
  | cons q rest =>
    have hq : q ∈ q :: rest := List.mem_cons_self _ _
    have hv : datapointValueOf (datapointToPy vts q.data) = some q.data :=
      datapointValueOf_datapointToPy vts q.data (fun s hs => hvts q hq s hs)
        (fun i hi => hr.2.2.2 q hq i hi) (fun s hs => (hnul.2.2 q hq).2 s hs)
    have hname : cstr q.name = q.name := cstr_of_nulFree _ (hnul.2.2 q hq).1
    have hasset : cstr asset = asset := cstr_of_nulFree _ hnul.1
    simp only [List.map_cons]
    unfold readDatapoints
    simp only [hv, hname, PyString_AsString, hasset,
      setOriginal_readingObject vts _ hr hnul, Reading.new]
    have := readDatapoints_readingObject vts d ⟨asset, q :: rest, id, uuid, ts, uts⟩ hvts hr hnul
      (.str asset) asset [q] rest (fun x hx => List.mem_cons_of_mem _ hx)
    simpa using this

theorem readElements_readingObjects (vts : DatapointValue → String)
    (defaults : Nat → ReadingDefaults) (k : Nat) (rs : List Reading)
    (h : ∀ r ∈ rs, r.InRange ∧ r.NulFree ∧ r.DistinctNames ∧ r.readingData ≠ [] ∧
      r.StringsKept vts) :
    readElements defaults k (rs.map (readingObject vts)) = .ok (rs.map some) := by
  induction rs generalizing k with
  | nil => rfl
  | cons r rest ih =>
    obtain ⟨h1, h2, h3, h4, h5⟩ := h r (List.mem_cons_self _ _)
    simp only [List.map_cons, readElements,
      readElement_readingObject vts (defaults k) r h5 h1 h2 h3 h4,
      ih (k + 1) (fun x hx => h x (List.mem_cons_of_mem _ hx))]

/-- C1, amended: for readings whose numbers fit their C types, whose strings hold
no NUL character, whose datapoints have pairwise distinct names, which have at
least one datapoint each, and whose string values, where they have any, are
given unchanged by `toString`, decoding the encoded list succeeds and returns,
index by index, a reading with the same asset name, set of datapoints, id, uuid
and timestamps. Nothing is asked of `toString` on values that do not occur. -/
theorem C1_round_trip (vts : DatapointValue → String) (defaults : Nat → ReadingDefaults)
    (rs : List Reading)
    (h : ∀ r ∈ rs, r.InRange ∧ r.NulFree ∧ r.DistinctNames ∧ r.readingData ≠ [] ∧
      r.StringsKept vts) :
    RoundTrip vts defaults rs := by
  refine ⟨rs.map some, ?_, by simp, ?_⟩
  · rw [createReadingsList_eq_map]
    exact readElements_readingObjects vts defaults 0 rs h
  · intro i r hi
    exact ⟨r, by simp [hi], rfl, fun _ => Iff.rfl, rfl, rfl, rfl, rfl⟩

theorem samplePumpReading_encodable (vts : DatapointValue → String) :
    samplePumpReading.InRange ∧ samplePumpReading.NulFree ∧ samplePumpReading.DistinctNames ∧
      samplePumpReading.readingData ≠ [] ∧ samplePumpReading.StringsKept vts := by
  refine ⟨⟨by decide, by decide, by decide, ?_⟩, ⟨by decide, by decide, ?_⟩,
    by decide, by decide, ?_⟩
  · intro dp hdp i hi
    simp only [samplePumpReading, List.mem_cons, List.mem_singleton, List.not_mem_nil,
      or_false] at hdp
    rcases hdp with rfl | rfl
    · cases hi
      constructor <;> decide
    · cases hi
  · intro dp hdp
    simp only [samplePumpReading, List.mem_cons, List.mem_singleton, List.not_mem_nil,
      or_false] at hdp
    rcases hdp with rfl | rfl
    · exact ⟨by decide, fun s hs => by cases hs⟩
    · exact ⟨by decide, fun s hs => by cases hs⟩
  · intro dp hdp s hs
    simp only [samplePumpReading, List.mem_cons, List.mem_singleton, List.not_mem_nil,
      or_false] at hdp
    rcases hdp with rfl | rfl <;> cases hs

theorem sampleText_encodable :
    sampleText.InRange ∧ sampleText.NulFree ∧ sampleText.DistinctNames ∧
      sampleText.readingData ≠ [] ∧ sampleText.StringsKept bareString := by
  refine ⟨⟨by decide, by decide, by decide, ?_⟩, ⟨by decide, by decide, ?_⟩,
    by decide, by decide, ?_⟩
  · intro dp hdp i hi
    simp only [sampleText, List.mem_singleton] at hdp
    subst hdp
    cases hi
  · intro dp hdp
    simp only [sampleText, List.mem_singleton] at hdp
    subst hdp
    exact ⟨by decide, fun s hs => by cases hs; decide⟩
  · intro dp hdp s hs
    simp only [sampleText, List.mem_singleton] at hdp
    subst hdp
    cases hs
    rfl

/-- C1, amended, at a list of two readings with an integer, a float and a string
value, and at a reading without string values under a `toString` that quotes
strings. -/
theorem C1_round_trip_witness :
    RoundTrip bareString sampleDefaults [samplePumpReading, sampleText] ∧
    RoundTrip quotedString sampleDefaults [samplePumpReading] :=
  ⟨C1_round_trip bareString sampleDefaults [samplePumpReading, sampleText]
      (by
        intro r hr
        simp only [List.mem_cons, List.mem_singleton, List.not_mem_nil, or_false] at hr
        rcases hr with rfl | rfl
        · exact samplePumpReading_encodable bareString
        · exact sampleText_encodable),
    C1_round_trip quotedString sampleDefaults [samplePumpReading]
      (by
        intro r hr
        simp only [List.mem_singleton] at hr
        subst hr
        exact samplePumpReading_encodable quotedString)⟩

/-- C1 as stated fails: two datapoints of one name come back as one; a reading
without datapoints comes back as a NULL entry; an asset name with a NUL
character comes back cut; and with a `toString` that quotes string values a
string value comes back in quotes. -/
theorem C1_round_trip_counterexample :
    ¬ RoundTrip bareString sampleDefaults [sampleTwice] ∧
    ¬ RoundTrip bareString sampleDefaults [sampleBare] ∧
    ¬ RoundTrip bareString sampleDefaults [sampleNul] ∧
    ¬ RoundTrip quotedString sampleDefaults [sampleText] := by
  refine ⟨?_, ?_, ?_, ?_⟩
  · rintro ⟨out, hout, _, h⟩
    have hval : getFilteredReadings sampleDefaults (createReadingsList bareString [sampleTwice]) =
        .ok [some { assetName := "pump", readingData := [⟨"rpm", .T_INTEGER 2⟩], id := 5,
                    uuid := "u-1", timestamp := 70, userTimestamp := 71 }] := rfl
    rw [hval] at hout
    cases hout
    obtain ⟨r', hr', hsame⟩ := h 0 sampleTwice rfl
    simp only [List.getElem?_cons_zero, Option.some.injEq] at hr'
    subst hr'
    have := (hsame.2.1 ⟨"rpm", .T_INTEGER 1⟩).mpr (by simp [sampleTwice])
    revert this
    decide
  · rintro ⟨out, hout, _, h⟩
    have hval : getFilteredReadings sampleDefaults (createReadingsList bareString [sampleBare]) =
        .ok [Option.none] := rfl
    rw [hval] at hout
    cases hout
    obtain ⟨r', hr', _⟩ := h 0 sampleBare rfl
    simp at hr'
  · rintro ⟨out, hout, _, h⟩
    have hval : getFilteredReadings sampleDefaults (createReadingsList bareString [sampleNul]) =
        .ok [some { assetName := "a", readingData := [⟨"rpm", .T_INTEGER 1⟩], id := 5,
                    uuid := "u-1", timestamp := 70, userTimestamp := 71 }] := rfl
    rw [hval] at hout
    cases hout
    obtain ⟨r', hr', hsame⟩ := h 0 sampleNul rfl
    simp only [List.getElem?_cons_zero, Option.some.injEq] at hr'
    subst hr'
    have := hsame.1
    revert this
    decide
  · rintro ⟨out, hout, _, h⟩
    have hval : getFilteredReadings sampleDefaults (createReadingsList quotedString [sampleText]) =
        .ok [some { assetName := "valve", readingData := [⟨"state", .T_STRING "\"open\""⟩],
                    id := 6, uuid := "u-2", timestamp := 80, userTimestamp := 81 }] := rfl
    rw [hval] at hout
    cases hout
    obtain ⟨r', hr', hsame⟩ := h 0 sampleText rfl
    simp only [List.getElem?_cons_zero, Option.some.injEq] at hr'
    subst hr'
    have := (hsame.2.1 ⟨"state", .T_STRING "open"⟩).mpr (by simp [sampleText])
    revert this
    decide

/-! ## Script name -/

theorem lastIndexFrom_none (p : Char → Bool) (l : List Char) (i best : Nat)
    (h : ∀ c ∈ l, p c = false) : lastIndexFrom p l i best = best := by
  induction l generalizing i best with
  | nil => rfl
  | cons c cs ih =>
    simp only [lastIndexFrom, h c (List.mem_cons_self _ _), Bool.false_eq_true, if_false]
    exact ih _ _ (fun x hx => h x (List.mem_cons_of_mem _ hx))

theorem lastIndexFrom_last (p : Char → Bool) (pre : List Char) (x : Char) (post : List Char)
    (i best : Nat) (hx : p x = true) (h : ∀ c ∈ post, p c = false) :
    lastIndexFrom p (pre ++ x :: post) i best = i + pre.length := by
  induction pre generalizing i best with
  | nil =>
    simp only [List.nil_append, lastIndexFrom, hx, if_true, List.length_nil, Nat.add_zero]
    exact lastIndexFrom_none p post _ _ h
  | cons c cs ih =>
    show lastIndexFrom p (cs ++ x :: post) (i + 1) (if p c = true then i else best) = _
    rw [ih, List.length_cons]
    omega

theorem rfindFrom_of_occurs (s pat : List Char) (i : Nat) (h : occursAt s pat i = true) :
    rfindFrom s pat i = i := by
  cases i with
  | zero => simp [rfindFrom, h]
  | succ n => simp [rfindFrom, h]

theorem rfindFrom_last (s pat : List Char) (k : Nat) (hk : occursAt s pat k = true)
    (hlast : ∀ j, k < j → occursAt s pat j = false) (i : Nat) (hi : k ≤ i) :
    rfindFrom s pat i = k := by
  induction i with
  | zero =>
    have : k = 0 := by omega
    subst this
    exact rfindFrom_of_occurs s pat 0 hk
  | succ n ih =>
    by_cases hkn : k = n + 1
    · subst hkn
      exact rfindFrom_of_occurs s pat _ hk
    · simp only [rfindFrom, hlast (n + 1) (by omega), Bool.false_eq_true, if_false]
      exact ih (by omega)

theorem occursAt_append (xs pat rest : List Char) :
    occursAt (xs ++ pat ++ rest) pat xs.length = true := by
  simp [occursAt, List.append_assoc]

theorem rfind_suffix (xs pat : String) :
    rfind (xs ++ pat) pat = xs.data.length := by
  unfold rfind
  simp only [String.data_append, List.length_append]
  rw [if_pos (by omega), Nat.add_sub_cancel]
  apply rfindFrom_of_occurs
  simpa using occursAt_append xs.data pat.data []

theorem replace_suffix (xs pat : String) (n : Nat) (hn : n = pat.data.length) :
    replace (xs ++ pat) xs.data.length n "" = .ok xs := by
  unfold replace
  subst hn
  simp only [String.data_append, List.length_append]
  rw [if_neg (by omega)]
  congr 1
  apply String.ext
  simp

theorem itemExists_of_getItemAttribute (config : ConfigCategory) (name file : String)
    (h : config.getItemAttribute name = some file) : config.itemExists name = true := by
  unfold ConfigCategory.getItemAttribute at h
  unfold ConfigCategory.itemExists
  cases hi : config.item name with
  | none => simp [hi] at h
  | some it => rfl

theorem slash_contains (ch : Char) : ("/".data.contains ch) = decide (ch = '/') := by
  show List.elem ch ['/'] = decide (ch = '/')
  by_cases h : ch = '/'
  · subst h
    rfl
  · have hb : (ch == '/') = false := by simpa using h
    rw [List.elem, hb]
    simp [List.elem, h]

theorem scriptFileName_data (c m : String) :
    (scriptFileName c m).data = c.data ++ "_script_".data ++ m.data ++ ".py".data := by
  simp [scriptFileName, PYTHON_SCRIPT_METHOD_PREFIX, PYTHON_SCRIPT_FILENAME_EXTENSION]

theorem scriptFileName_no_slash (c m : String) (hc : '/' ∉ c.data) (hm : '/' ∉ m.data) :
    ∀ ch ∈ (scriptFileName c m).data, ("/".data.contains ch) = false := by
  intro ch hch
  rw [slash_contains]
  rw [scriptFileName_data] at hch
  simp only [List.mem_append] at hch
  simp only [decide_eq_false_iff_not]
  rintro rfl
  rcases hch with ((h | h) | h) | h
  · exact hc h
  · revert h; decide
  · exact hm h
  · revert h; decide

theorem setScriptName_scriptFile (config : ConfigCategory) (old : String) (dir : Option String)
    (c m : String)
    (hattr : config.getItemAttribute SCRIPT_CONFIG_ITEM_NAME = some (scriptFile dir c m))
    (hc : '/' ∉ c.data) (hm : '/' ∉ m.data)
    (hlen : (scriptFile dir c m).data.length < two64) :
    setScriptName config old = .ok (true, scriptFileName c m) := by
  have hsub : substr (scriptFile dir c m)
      (sizeAdd (find_last_of (scriptFile dir c m) "/") 1) = .ok (scriptFileName c m) := by
    cases dir with
    | none =>
      have hfind : find_last_of (scriptFileName c m) "/" = npos :=
        lastIndexFrom_none _ _ 0 npos (scriptFileName_no_slash c m hc hm)
      have h0 : sizeAdd npos 1 = 0 := by decide
      simp only [scriptFile, hfind, h0, substr]
      rw [if_neg (by omega)]
      rfl
    | some d =>
      have hdata : (scriptFile (some d) c m).data = d.data ++ '/' :: (scriptFileName c m).data := by
        simp [scriptFile]
      have hfind : find_last_of (scriptFile (some d) c m) "/" = d.data.length := by
        unfold find_last_of
        rw [hdata, lastIndexFrom_last _ d.data '/' _ 0 npos (by rw [slash_contains]; decide)
          (scriptFileName_no_slash c m hc hm)]
        omega
      rw [hdata] at hlen
      simp only [List.length_append, List.length_cons] at hlen
      have hadd : sizeAdd d.data.length 1 = d.data.length + 1 := by
        unfold sizeAdd
        exact Nat.mod_eq_of_lt (by omega)
      rw [hfind, hadd]
      unfold substr
      rw [hdata, if_neg (by simp)]
      congr 1
      apply String.ext
      show List.drop (d.data.length + 1) (d.data ++ '/' :: (scriptFileName c m).data) = _
      have happ : d.data ++ '/' :: (scriptFileName c m).data =
          (d.data ++ ['/']) ++ (scriptFileName c m).data := by simp
      rw [happ]
      exact List.drop_left' (by simp)
  have hne : (scriptFileName c m).data ≠ [] := by
    rw [scriptFileName_data]
    intro h
    have := congrArg List.length h
    simp at this
  unfold setScriptName
  simp only [itemExists_of_getItemAttribute config _ _ hattr, hattr, if_true, hsub]
  simp [hne]

theorem configureNames_scriptFileName (c m : String)
    (hlast : ∀ j, c.data.length < j →
      occursAt (scriptFileName c m).data PYTHON_SCRIPT_METHOD_PREFIX.data j = false)
    (hlen : (scriptFileName c m).data.length < two64) :
    configureNames (scriptFileName c m) = .ok (c ++ PYTHON_SCRIPT_METHOD_PREFIX ++ m, m) := by
  have hdata := scriptFileName_data c m
  have hsize : (scriptFileName c m).data.length = c.data.length + 8 + m.data.length + 3 := by
    rw [hdata]
    simp only [List.length_append]
    rfl
  have hplen : PYTHON_SCRIPT_METHOD_PREFIX.data.length = 8 := rfl
  have h1 : rfind (scriptFileName c m) PYTHON_SCRIPT_METHOD_PREFIX = c.data.length := by
    unfold rfind
    rw [if_pos (by rw [hsize, hplen]; omega)]
    apply rfindFrom_last _ _ _ _ hlast _ (by rw [hsize, hplen]; omega)
    rw [hdata, List.append_assoc]
    exact occursAt_append c.data "_script_".data (m.data ++ ".py".data)
  have h2 : strlen PYTHON_SCRIPT_METHOD_PREFIX = 8 := rfl
  have h2' : strlen PYTHON_SCRIPT_FILENAME_EXTENSION = 3 := rfl
  have h3 : sizeAdd c.data.length 8 = c.data.length + 8 := by
    unfold sizeAdd
    exact Nat.mod_eq_of_lt (by omega)
  have h4 : substr (scriptFileName c m) (c.data.length + 8) =
      .ok (m ++ PYTHON_SCRIPT_FILENAME_EXTENSION) := by
    unfold substr
    rw [if_neg (by rw [hsize]; omega)]
    congr 1
    apply String.ext
    rw [hdata]
    have happ : c.data ++ "_script_".data ++ m.data ++ ".py".data =
        (c.data ++ "_script_".data) ++ (m.data ++ ".py".data) := by simp
    rw [happ]
    show List.drop (c.data.length + 8) _ = _
    rw [List.drop_left' (by simp)]
    simp [PYTHON_SCRIPT_FILENAME_EXTENSION]
  have h5 : rfind (m ++ PYTHON_SCRIPT_FILENAME_EXTENSION) PYTHON_SCRIPT_FILENAME_EXTENSION =
      m.data.length := rfind_suffix m _
  have h6 : replace (m ++ PYTHON_SCRIPT_FILENAME_EXTENSION) m.data.length 3 "" = .ok m :=
    replace_suffix m _ 3 rfl
  have h7 : rfind (scriptFileName c m) PYTHON_SCRIPT_FILENAME_EXTENSION =
      (c ++ PYTHON_SCRIPT_METHOD_PREFIX ++ m).data.length := rfind_suffix _ _
  have h8 : replace (scriptFileName c m) (c ++ PYTHON_SCRIPT_METHOD_PREFIX ++ m).data.length 3 "" =
      .ok (c ++ PYTHON_SCRIPT_METHOD_PREFIX ++ m) := replace_suffix _ _ 3 rfl
  unfold configureNames
  simp only [h1, h2, h2', h3, h4, h5, h6, h7, h8]

/-- C9: for a `script` item whose file attribute is `c + "_script_" + m + ".py"`,
alone or behind a directory part and a slash, where `c` and `m` hold no slash
and no `_script_` starts in the file name after the one in front of `m`,
`setScriptName` returns true and sets the script name to the file name, from
which `configure` derives the import name `c + "_script_" + m` and the
entry-point name `m`: with that script name `configure` is the load step run
with these two names. -/
theorem C9_script_name_resolution (config : ConfigCategory) (old : String)
    (dir : Option String) (c m : String)
    (hattr : config.getItemAttribute SCRIPT_CONFIG_ITEM_NAME = some (scriptFile dir c m))
    (hc : '/' ∉ c.data) (hm : '/' ∉ m.data)
    (hlast : ∀ j, c.data.length < j →
      occursAt (scriptFileName c m).data PYTHON_SCRIPT_METHOD_PREFIX.data j = false)
    (hlen : (scriptFile dir c m).data.length < two64) :
    setScriptName config old = .ok (true, scriptFileName c m) ∧
    configureNames (scriptFileName c m) = .ok (c ++ "_script_" ++ m, m) ∧
    ∀ (engine : Engine) (f : Filter), f.m_pythonScript = scriptFileName c m →
      configure engine f = .ok (configureLoad engine f (c ++ "_script_" ++ m) m) := by
  have hlen' : (scriptFileName c m).data.length < two64 := by
    cases dir with
    | none => exact hlen
    | some d =>
      have : (scriptFile (some d) c m).data = d.data ++ '/' :: (scriptFileName c m).data := by
        simp [scriptFile]
      rw [this] at hlen
      simp only [List.length_append, List.length_cons] at hlen
      omega
  have hnames := configureNames_scriptFileName c m hlast hlen'
  refine ⟨setScriptName_scriptFile config old dir c m hattr hc hm hlen, hnames, ?_⟩
  intro engine f hf
  unfold configure
  rw [hf, hnames]
  rfl

/-- C9, at the file reference `/usr/local/scripts/MyCat_script_transform.py`. -/
theorem C9_script_name_resolution_witness :
    setScriptName (sampleConfig "/usr/local/scripts/MyCat_script_transform.py") "" =
      .ok (true, "MyCat_script_transform.py") ∧
    configureNames "MyCat_script_transform.py" = .ok ("MyCat_script_transform", "transform") ∧
    configure transformEngine (sampleFilter "MyCat_script_transform.py") =
      .ok (configureLoad transformEngine (sampleFilter "MyCat_script_transform.py")
        "MyCat_script_transform" "transform") :=
  have h := C9_script_name_resolution
    (sampleConfig "/usr/local/scripts/MyCat_script_transform.py") ""
    (some "/usr/local/scripts") "MyCat" "transform" rfl (by decide) (by decide)
    (by
      have hb : ∀ j, j < 26 → 5 < j →
          occursAt (scriptFileName "MyCat" "transform").data
            PYTHON_SCRIPT_METHOD_PREFIX.data j = false := by decide
      intro j hj
      by_cases h : j < 26
      · exact hb j h hj
      · unfold occursAt
        have hl : (scriptFileName "MyCat" "transform").data.length = 25 := rfl
        rw [List.drop_of_length_le (by omega)]
        rfl)
    (by decide)
  ⟨h.1, h.2.1, h.2.2 transformEngine (sampleFilter "MyCat_script_transform.py") rfl⟩

/-- C10: for the script file `readings_filter.py` of the header comment the module
that `configure` imports is `readings_filter`, but the entry point it looks up
is `s_filter`, so that with a module written as the comment asks it returns
false and leaves both handles NULL; for the script name `readings_filter`
alone it throws `std::out_of_range`. -/
theorem C10_documented_example_entry_point :
    configureNames "readings_filter.py" = .ok ("readings_filter", "s_filter") ∧
    (∃ f, configure documentedEngine (sampleFilter "readings_filter.py") = .ok (false, f) ∧
      f.m_pModule.isNone = true ∧ f.m_pFunc.isNone = true) ∧
    configureNames "readings_filter" = .error .out_of_range ∧
    (∀ engine, configure engine (sampleFilter "readings_filter") = .error .out_of_range) :=
  ⟨rfl, ⟨_, rfl, rfl, rfl⟩, rfl, fun _ => rfl⟩

/-! ## `configure` and `reconfigure` -/

theorem configure_enabled (engine : Engine) (f : Filter) (b : Bool) (f' : Filter)
    (h : configure engine f = .ok (b, f')) : f'.enabled = f.enabled := by
  unfold configure at h
  cases hn : configureNames f.m_pythonScript with
  | error e => simp [hn] at h
  | ok names =>
    obtain ⟨script, method⟩ := names
    simp only [hn, Except.ok.injEq] at h
    have : (configureLoad engine f script method).2.enabled = f.enabled := by
      unfold configureLoad
      simp only []
      repeat' split
      all_goals rfl
    rw [h] at this
    exact this

theorem configureLoad_flag (engine : Engine) (f : Filter) (script method : String)
    (pModule : PyModule) (himp : engine.PyImport_Import (cstr script) = some pModule)
    (hentry : PyCallable_Check (PyObject_GetAttrString pModule method) = true) :
    (configureLoad engine f script method).1 =
      if PyCallable_Check (PyObject_GetAttrString pModule DEFAULT_FILTER_CONFIG_METHOD) then
        match PyObject_CallFunctionObjArgs
          (PyObject_GetAttrString pModule DEFAULT_FILTER_CONFIG_METHOD) (configArgument f.config) with
        | some (PyObj.bool true) => true
        | _ => false
      else true := by
  unfold configureLoad
  simp only [himp, hentry, Bool.not_true, Bool.false_eq_true, if_false]
  by_cases hc : PyCallable_Check (PyObject_GetAttrString pModule DEFAULT_FILTER_CONFIG_METHOD) = true
  · simp only [hc, if_true, configArgument]
    generalize PyObject_CallFunctionObjArgs _ _ = r
    cases r with
    | none => rfl
    | some r =>
      cases r with
      | bool b => cases b <;> rfl
      | _ => rfl
  · simp only [hc, Bool.false_eq_true, if_false]

theorem configureLoad_binding (engine : Engine) (f : Filter) (script method : String)
    (hf : f.m_pFunc = Option.none) :
    ((configureLoad engine f script method).1 = true ∧
        (configureLoad engine f script method).2.m_pModule.isSome = true ∧
        (configureLoad engine f script method).2.m_pFunc.isSome = true) ∨
    ((configureLoad engine f script method).1 = false ∧
        (configureLoad engine f script method).2.m_pModule.isNone = true ∧
        (configureLoad engine f script method).2.m_pFunc.isNone = true) := by
  unfold configureLoad
  cases himp : engine.PyImport_Import (cstr script) with
  | none => right; simp [hf]
  | some pModule =>
    simp only []
    cases hattr : PyObject_GetAttrString pModule method with
    | none => right; simp [PyCallable_Check]
    | some a =>
      cases a with
      | object o => right; simp [PyCallable_Check]
      | callable call =>
        simp only [PyCallable_Check, Bool.not_true, Bool.false_eq_true, if_false]
        split
        · split
          · right; simp
          · split
            · right; simp
            · left; simp
        · left; simp

theorem configureLoad_no_entry_point (engine : Engine) (f : Filter) (script method : String)
    (pModule : PyModule) (himp : engine.PyImport_Import (cstr script) = some pModule)
    (hentry : PyCallable_Check (PyObject_GetAttrString pModule method) = false) :
    (configureLoad engine f script method).1 = false ∧
      (configureLoad engine f script method).2.m_pModule.isNone = true ∧
      (configureLoad engine f script method).2.m_pFunc.isNone = true := by
  unfold configureLoad
  simp [himp, hentry]

/-- C11: `configure` throws `std::out_of_range` and returns neither true nor
false, whatever the engine, for the empty script name, for a name of fewer
than 7 characters without `_script_`, for a longer name without `.py`, and
for the name `readings_filter` that the header comment advises; so does
`reconfigure` for a `script` item whose file is `readings_filter`. -/
theorem C11_configure_throws_out_of_range (engine : Engine) :
    configure engine (sampleFilter "") = .error .out_of_range ∧
    configure engine (sampleFilter "abc") = .error .out_of_range ∧
    configure engine (sampleFilter "abcdefgh") = .error .out_of_range ∧
    configure engine (sampleFilter "readings_filter") = .error .out_of_range ∧
    (∀ enabled, (reconfigure engine boundFilter (sampleConfig "/scripts/readings_filter")
      enabled).1 = .error .out_of_range) :=
  ⟨rfl, rfl, rfl, rfl, fun enabled => by cases enabled <;> rfl⟩

/-- C12: when the first step of `configure` gives the names `script` and `method`,
the import of `script` gives a module and `method` is a callable attribute of
it, `configure` returns, and it returns true exactly when the module has no
callable `set_filter_config` or the call of `set_filter_config` on the
configuration dictionary returns the boolean `True`. -/
theorem C12_config_push_decides_configure (engine : Engine) (f : Filter)
    (script method : String) (pModule : PyModule)
    (hnames : configureNames f.m_pythonScript = .ok (script, method))
    (himp : engine.PyImport_Import (cstr script) = some pModule)
    (hentry : PyCallable_Check (PyObject_GetAttrString pModule method) = true) :
    ∃ b f', configure engine f = .ok (b, f') ∧
      (b = true ↔
        (PyCallable_Check (PyObject_GetAttrString pModule "set_filter_config") = false ∨
          PyObject_CallFunctionObjArgs (PyObject_GetAttrString pModule "set_filter_config")
            (configArgument f.config) = some (PyObj.bool true))) := by
  refine ⟨(configureLoad engine f script method).1, (configureLoad engine f script method).2,
    by unfold configure; rw [hnames], ?_⟩
  rw [configureLoad_flag engine f script method pModule himp hentry]
  show _ ↔ (PyCallable_Check (PyObject_GetAttrString pModule DEFAULT_FILTER_CONFIG_METHOD) = false ∨
    PyObject_CallFunctionObjArgs (PyObject_GetAttrString pModule DEFAULT_FILTER_CONFIG_METHOD)
      (configArgument f.config) = some (PyObj.bool true))
  by_cases hc : PyCallable_Check (PyObject_GetAttrString pModule DEFAULT_FILTER_CONFIG_METHOD) = true
  · simp only [hc, if_true, Bool.true_eq_false, false_or]
    generalize PyObject_CallFunctionObjArgs _ _ = r
    cases r with
    | none => simp
    | some r =>
      cases r with
      | bool b => cases b <;> simp
      | _ => simp
  · simp only [hc, Bool.false_eq_true, if_false, true_iff]
    left
    simp [hc]

/-- C12, at modules whose `set_filter_config` returns `True`, returns `False`,
returns the integer 1, raises, or is missing. -/
theorem C12_config_push_decides_configure_witness :
    (∃ b f', configure (configEngine (some (.bool true)))
        (sampleFilter "MyCat_script_transform.py") = .ok (b, f') ∧
      (b = true ↔
        (PyCallable_Check (PyObject_GetAttrString (configModule (some (.bool true)))
            "set_filter_config") = false ∨
          PyObject_CallFunctionObjArgs (PyObject_GetAttrString (configModule (some (.bool true)))
            "set_filter_config")
            (configArgument (sampleFilter "MyCat_script_transform.py").config) =
              some (PyObj.bool true)))) ∧
    (configure (configEngine (some (.bool true)))
      (sampleFilter "MyCat_script_transform.py")).map Prod.fst = .ok true ∧
    (configure (configEngine (some (.bool false)))
      (sampleFilter "MyCat_script_transform.py")).map Prod.fst = .ok false ∧
    (configure (configEngine (some (.int 1)))
      (sampleFilter "MyCat_script_transform.py")).map Prod.fst = .ok false ∧
    (configure (configEngine Option.none)
      (sampleFilter "MyCat_script_transform.py")).map Prod.fst = .ok false ∧
    (configure transformEngine
      (sampleFilter "MyCat_script_transform.py")).map Prod.fst = .ok true :=
  ⟨C12_config_push_decides_configure (configEngine (some (.bool true)))
      (sampleFilter "MyCat_script_transform.py") "MyCat_script_transform" "transform"
      (configModule (some (.bool true))) rfl rfl rfl,
    rfl, rfl, rfl, rfl, rfl⟩

theorem reconfigure_no_script_name (engine : Engine) (f : Filter) (newConfig : ConfigCategory)
    (enabled : Bool) (s : String) (h : setScriptName newConfig "" = .ok (false, s)) :
    reconfigure engine f newConfig enabled =
      (.ok false, { config := newConfig, enabled := false, m_pModule := Option.none,
                    m_pFunc := Option.none, m_pythonScript := s }) := by
  unfold reconfigure
  simp only [Filter.setConfig, h]
  rfl

theorem reconfigure_binding (engine : Engine) (f : Filter) (newConfig : ConfigCategory)
    (enabled : Bool) :
    ((reconfigure engine f newConfig enabled).1 = .ok true ∧
        (reconfigure engine f newConfig enabled).2.m_pModule.isSome = true ∧
        (reconfigure engine f newConfig enabled).2.m_pFunc.isSome = true) ∨
    ((reconfigure engine f newConfig enabled).1 ≠ .ok true ∧
        (reconfigure engine f newConfig enabled).2.m_pModule.isNone = true ∧
        (reconfigure engine f newConfig enabled).2.m_pFunc.isNone = true) := by
  unfold reconfigure
  simp only [Filter.setConfig]
  cases hs : setScriptName newConfig "" with
  | error e => right; simp
  | ok r =>
    obtain ⟨found, script⟩ := r
    cases found with
    | false => right; simp [Filter.disableFilter]
    | true =>
      simp only [Bool.not_true, Bool.false_eq_true, if_false]
      unfold configure
      simp only []
      cases hn : configureNames script with
      | error e => right; simp
      | ok names =>
        obtain ⟨name, method⟩ := names
        simp only []
        rcases configureLoad_binding engine
          { config := newConfig, enabled := enabled, m_pModule := Option.none,
            m_pFunc := Option.none, m_pythonScript := script } name method rfl with h | h
        · left
          obtain ⟨h1, h2, h3⟩ := h
          generalize configureLoad engine _ name method = r at h1 h2 h3 ⊢
          obtain ⟨b, f'⟩ := r
          simp only at h1 h2 h3 ⊢
          subst h1
          exact ⟨rfl, h2, h3⟩
        · right
          obtain ⟨h1, h2, h3⟩ := h
          generalize configureLoad engine _ name method = r at h1 h2 h3 ⊢
          obtain ⟨b, f'⟩ := r
          simp only at h1 h2 h3 ⊢
          subst h1
          exact ⟨by simp, h2, h3⟩

/-- C13, amended: when the new configuration gives no script name, `reconfigure`
returns false and the filter is disabled afterwards, whatever flag `setConfig`
left; `configure` leaves the enabled flag as it found it, whatever it returns;
and it does return, with that flag, whenever its handling of the script name
does not throw. -/
theorem C13_disabled_after_missing_script_name (engine : Engine) (f : Filter)
    (newConfig : ConfigCategory) (enabled : Bool) :
    ((∃ s, setScriptName newConfig "" = .ok (false, s)) →
      (reconfigure engine f newConfig enabled).1 = .ok false ∧
      (reconfigure engine f newConfig enabled).2.enabled = false) ∧
    (∀ b f', configure engine f = .ok (b, f') → f'.enabled = f.enabled) ∧
    (∀ script method, configureNames f.m_pythonScript = .ok (script, method) →
      ∃ b f', configure engine f = .ok (b, f') ∧ f'.enabled = f.enabled) := by
  refine ⟨?_, fun b f' h => configure_enabled engine f b f' h, ?_⟩
  · rintro ⟨s, hs⟩
    rw [reconfigure_no_script_name engine f newConfig enabled s hs]
    exact ⟨rfl, rfl⟩
  · intro script method hn
    have hc : configure engine f =
        .ok ((configureLoad engine f script method).1, (configureLoad engine f script method).2) := by
      unfold configure
      rw [hn]
    exact ⟨_, _, hc, configure_enabled engine f _ _ hc⟩

/-- C13, amended, at a configuration without a `script` item and at a failing
`configure`. -/
theorem C13_disabled_after_missing_script_name_witness :
    ((reconfigure transformEngine boundFilter noScriptConfig true).1 = .ok false ∧
      (reconfigure transformEngine boundFilter noScriptConfig true).2.enabled = false) ∧
    (∀ b f', configure brokenEngine (sampleFilter "MyCat_script_transform.py") = .ok (b, f') →
      f'.enabled = (sampleFilter "MyCat_script_transform.py").enabled) ∧
    (∃ b f', configure brokenEngine (sampleFilter "MyCat_script_transform.py") = .ok (b, f') ∧
      f'.enabled = (sampleFilter "MyCat_script_transform.py").enabled) :=
  ⟨(C13_disabled_after_missing_script_name transformEngine boundFilter noScriptConfig true).1
      ⟨"", rfl⟩,
    (C13_disabled_after_missing_script_name brokenEngine
      (sampleFilter "MyCat_script_transform.py") noScriptConfig true).2.1,
    (C13_disabled_after_missing_script_name brokenEngine
      (sampleFilter "MyCat_script_transform.py") noScriptConfig true).2.2
      "MyCat_script_transform" "transform" rfl⟩

/-- C13 as stated fails: `configure` returns false for a module that cannot be
imported and for an entry point that is no callable, and so does `reconfigure`,
and the filter is still enabled afterwards. -/
theorem C13_false_return_keeps_filter_enabled_counterexample :
    (∃ f', configure documentedEngine (sampleFilter "MyCat_script_transform.py") =
      .ok (false, f') ∧ f'.enabled = true) ∧
    (∃ f', configure brokenEngine (sampleFilter "MyCat_script_transform.py") =
      .ok (false, f') ∧ f'.enabled = true) ∧
    (reconfigure documentedEngine boundFilter (sampleConfig "MyCat_script_transform.py")
      true).1 = .ok false ∧
    (reconfigure documentedEngine boundFilter (sampleConfig "MyCat_script_transform.py")
      true).2.enabled = true :=
  ⟨⟨_, rfl, rfl⟩, ⟨_, rfl, rfl⟩, rfl, rfl⟩

/-- C14: after `reconfigure`, from any state, either it returned true and both
handles are set, or it returned false or threw and both handles are NULL;
after `configure` returns from a state whose function handle is NULL, either
it returned true and both handles are set, or it returned false and both are
NULL; and an entry point that is missing or no callable makes `configure`
return false with both handles NULL. -/
theorem C14_binding_never_half_valid (engine : Engine) (f : Filter)
    (newConfig : ConfigCategory) (enabled : Bool) :
    (((reconfigure engine f newConfig enabled).1 = .ok true ∧
        (reconfigure engine f newConfig enabled).2.m_pModule.isSome = true ∧
        (reconfigure engine f newConfig enabled).2.m_pFunc.isSome = true) ∨
      ((reconfigure engine f newConfig enabled).1 ≠ .ok true ∧
        (reconfigure engine f newConfig enabled).2.m_pModule.isNone = true ∧
        (reconfigure engine f newConfig enabled).2.m_pFunc.isNone = true)) ∧
    (f.m_pFunc = Option.none → ∀ b f', configure engine f = .ok (b, f') →
      (b = true ∧ f'.m_pModule.isSome = true ∧ f'.m_pFunc.isSome = true) ∨
      (b = false ∧ f'.m_pModule.isNone = true ∧ f'.m_pFunc.isNone = true)) ∧
    (∀ script method pModule, configureNames f.m_pythonScript = .ok (script, method) →
      engine.PyImport_Import (cstr script) = some pModule →
      PyCallable_Check (PyObject_GetAttrString pModule method) = false →
      ∃ f', configure engine f = .ok (false, f') ∧ f'.m_pModule.isNone = true ∧
        f'.m_pFunc.isNone = true) := by
  refine ⟨reconfigure_binding engine f newConfig enabled, ?_, ?_⟩
  · intro hf b f' h
    unfold configure at h
    cases hn : configureNames f.m_pythonScript with
    | error e => simp [hn] at h
    | ok names =>
      obtain ⟨script, method⟩ := names
      simp only [hn, Except.ok.injEq] at h
      have hb := configureLoad_binding engine f script method hf
      rw [h] at hb
      exact hb
  · intro script method pModule hn himp hentry
    obtain ⟨h1, h2, h3⟩ := configureLoad_no_entry_point engine f script method pModule himp hentry
    refine ⟨(configureLoad engine f script method).2, ?_, h2, h3⟩
    unfold configure
    rw [hn]
    simp only []
    rw [← h1]

/-- C14, at a module whose entry point is no callable and at one that loads. -/
theorem C14_binding_never_half_valid_witness :
    (∃ f', configure brokenEngine (sampleFilter "MyCat_script_transform.py") = .ok (false, f') ∧
      f'.m_pModule.isNone = true ∧ f'.m_pFunc.isNone = true) ∧
    (reconfigure transformEngine boundFilter (sampleConfig "MyCat_script_transform.py")
      true).1 = .ok true :=
  ⟨(C14_binding_never_half_valid brokenEngine (sampleFilter "MyCat_script_transform.py")
      noScriptConfig true).2.2 "MyCat_script_transform" "transform" brokenModule rfl rfl rfl,
    rfl⟩

theorem configure_of_names_error (engine : Engine) (f : Filter) (e : CppException)
    (h : configureNames f.m_pythonScript = .error e) : configure engine f = .error e := by
  unfold configure
  rw [h]

theorem configureNames_empty : configureNames "" = .error .out_of_range := rfl

theorem setScriptName_without_file (config : ConfigCategory) (old : String)
    (hattr : config.getItemAttribute SCRIPT_CONFIG_ITEM_NAME = Option.none) :
    setScriptName config old = .ok (!(decide (old.data = [])), old) := by
  unfold setScriptName
  simp only [hattr, ite_self]

theorem setScriptName_true (config : ConfigCategory) (old s : String)
    (h : setScriptName config old = .ok (true, s)) : s ≠ "" := by
  unfold setScriptName at h
  simp only [] at h
  split at h
  · rename_i script _
    simp only [Except.ok.injEq, Prod.mk.injEq] at h
    obtain ⟨h1, h2⟩ := h
    subst h2
    intro hs
    subst hs
    simp at h1
  · cases h

theorem getItemAttribute_of_not_exists (config : ConfigCategory) (name : String)
    (h : config.itemExists name = false) : config.getItemAttribute name = Option.none := by
  unfold ConfigCategory.itemExists at h
  unfold ConfigCategory.getItemAttribute
  cases hi : config.item name with
  | none => rfl
  | some it => simp [hi] at h

theorem reconfigure_with_script_name (engine : Engine) (f : Filter) (newConfig : ConfigCategory)
    (enabled : Bool) (s : String) (h : setScriptName newConfig "" = .ok (true, s)) :
    reconfigure engine f newConfig enabled =
      match configure engine { config := newConfig, enabled := enabled, m_pModule := Option.none,
                               m_pFunc := Option.none, m_pythonScript := s } with
      | .error e => (.error e, { config := newConfig, enabled := enabled,
                                 m_pModule := Option.none, m_pFunc := Option.none,
                                 m_pythonScript := s })
      | .ok (result, f') => (.ok result, f') := by
  unfold reconfigure
  simp only [Filter.setConfig, h]
  rfl

/-- C15, amended: `reconfigure` with a configuration without `script` item
returns false, disables the filter and leaves both handles and the script name
cleared, whatever the engine, so that no import takes part in it; and whenever
`setScriptName` returns true in `reconfigure`, the script name is not empty and
it is on that name that `configure` runs. -/
theorem C15_reconfigure_without_script_item (engine : Engine) (f : Filter)
    (newConfig : ConfigCategory) (enabled : Bool)
    (h : newConfig.itemExists "script" = false) :
    reconfigure engine f newConfig enabled =
      (.ok false, { config := newConfig, enabled := false, m_pModule := Option.none,
                    m_pFunc := Option.none, m_pythonScript := "" }) ∧
    (∀ other : Engine,
      reconfigure other f newConfig enabled = reconfigure engine f newConfig enabled) ∧
    (∀ (config : ConfigCategory) (s : String), setScriptName config "" = .ok (true, s) →
      s ≠ "" ∧
      reconfigure engine f config enabled =
        match configure engine { config := config, enabled := enabled, m_pModule := Option.none,
                                 m_pFunc := Option.none, m_pythonScript := s } with
        | .error e => (.error e, { config := config, enabled := enabled,
                                   m_pModule := Option.none, m_pFunc := Option.none,
                                   m_pythonScript := s })
        | .ok (result, f') => (.ok result, f')) := by
  have hs : setScriptName newConfig "" = .ok (false, "") :=
    setScriptName_without_file newConfig "" (getItemAttribute_of_not_exists newConfig _ h)
  refine ⟨reconfigure_no_script_name engine f newConfig enabled "" hs, ?_, ?_⟩
  · intro other
    rw [reconfigure_no_script_name engine f newConfig enabled "" hs,
      reconfigure_no_script_name other f newConfig enabled "" hs]
  · intro config s hc
    exact ⟨setScriptName_true config "" s hc,
      reconfigure_with_script_name engine f config enabled s hc⟩

/-- C15, amended, at a filter bound to a module and a configuration without
`script` item. -/
theorem C15_reconfigure_without_script_item_witness :
    noScriptConfig.itemExists "script" = false ∧
    reconfigure transformEngine boundFilter noScriptConfig true =
      (.ok false, { config := noScriptConfig, enabled := false, m_pModule := Option.none,
                    m_pFunc := Option.none, m_pythonScript := "" }) :=
  ⟨rfl, (C15_reconfigure_without_script_item transformEngine boundFilter noScriptConfig true
    rfl).1⟩

/-- C15 as stated fails: with the script name unset `configure` does not return
false, it throws `std::out_of_range`; so it does on a new instance and on the
instance that `reconfigure` left without script name. -/
theorem C15_configure_with_unset_name_counterexample :
    configure transformEngine unsetFilter = .error .out_of_range ∧
    (∀ f', configure transformEngine unsetFilter ≠ .ok (false, f')) ∧
    configure transformEngine (reconfigure transformEngine boundFilter noScriptConfig true).2 =
      .error .out_of_range :=
  ⟨rfl,
    (fun f' h => by
      have h2 : configure transformEngine unsetFilter = .error .out_of_range := rfl
      rw [h2] at h
      cases h),
    rfl⟩

theorem configArgument_of_item (config : ConfigCategory) (it : ConfigItem)
    (h : config.item "config" = some it) :
    configArgument config = PyObj.dict [("config", PyObj.str (cstr it.value))] := by
  unfold configArgument
  simp only [ConfigCategory.itemExists, ConfigCategory.getValue, h, Option.isSome_some, if_true]
  rfl

/-- C16: without an item `config` the dictionary handed to `set_filter_config` is
`{"config": "{}"}`; with such an item it holds the C string of the item's value
under `config`, which is the value itself when that has no NUL character; and
the flag `configure` returns after a successful import and entry-point lookup
is decided by the call of `set_filter_config` on that dictionary. -/
theorem C16_config_blob (config : ConfigCategory) :
    (config.itemExists "config" = false →
      configArgument config = PyObj.dict [("config", PyObj.str "{}")]) ∧
    (∀ it, config.item "config" = some it →
      configArgument config = PyObj.dict [("config", PyObj.str (cstr it.value))] ∧
      (NulFree it.value →
        configArgument config = PyObj.dict [("config", PyObj.str it.value)])) ∧
    (∀ (engine : Engine) (f : Filter) (script method : String) (pModule : PyModule),
      f.config = config → engine.PyImport_Import (cstr script) = some pModule →
      PyCallable_Check (PyObject_GetAttrString pModule method) = true →
      (configureLoad engine f script method).1 =
        if PyCallable_Check (PyObject_GetAttrString pModule "set_filter_config") then
          match PyObject_CallFunctionObjArgs
            (PyObject_GetAttrString pModule "set_filter_config") (configArgument config) with
          | some (PyObj.bool true) => true
          | _ => false
        else true) := by
  refine ⟨?_, ?_, ?_⟩
  · intro h
    unfold configArgument
    simp only [h, Bool.false_eq_true, if_false]
    rfl
  · intro it h
    refine ⟨configArgument_of_item config it h, fun hn => ?_⟩
    rw [configArgument_of_item config it h, cstr_of_nulFree _ hn]
  · intro engine f script method pModule hc himp hentry
    subst hc
    exact configureLoad_flag engine f script method pModule himp hentry

/-- C16, at a configuration without the item `config` and at one whose item
`config` is a JSON object. -/
theorem C16_config_blob_witness :
    configArgument noScriptConfig = PyObj.dict [("config", PyObj.str "{}")] ∧
    configArgument blobConfig = PyObj.dict [("config", PyObj.str blobConfigItem.value)] :=
  ⟨(C16_config_blob noScriptConfig).1 rfl,
    ((C16_config_blob blobConfig).2.1 blobConfigItem rfl).2 (by decide)⟩

theorem last_slash (l : List Char) :
    '/' ∉ l ∨ ∃ pre post, l = pre ++ '/' :: post ∧ '/' ∉ post := by
  induction l with
  | nil => left; simp
  | cons c cs ih =>
    rcases ih with h | ⟨pre, post, hl, hp⟩
    · by_cases hc : c = '/'
      · right
        exact ⟨[], cs, by simp [hc], h⟩
      · left
        simp only [List.mem_cons, not_or]
        exact ⟨fun e => hc e.symm, h⟩
    · right
      exact ⟨c :: pre, post, by simp [hl], hp⟩

theorem no_slash_contains (l : List Char) (h : '/' ∉ l) :
    ∀ ch ∈ l, ("/".data.contains ch) = false := by
  intro ch hch
  rw [slash_contains]
  simp only [decide_eq_false_iff_not]
  rintro rfl
  exact h hch

theorem setScriptName_of_file (config : ConfigCategory) (old f : String)
    (hattr : config.getItemAttribute SCRIPT_CONFIG_ITEM_NAME = some f)
    (hlen : f.data.length < two64) :
    ∃ name, setScriptName config old = .ok (!(decide (name.data = [])), name) ∧
      (('/' ∉ f.data ∧ name = f) ∨ ∃ pre, f.data = pre ++ '/' :: name.data ∧ '/' ∉ name.data) := by
  have hex := itemExists_of_getItemAttribute config _ _ hattr
  rcases last_slash f.data with h | ⟨pre, post, hl, hp⟩
  · refine ⟨f, ?_, Or.inl ⟨h, rfl⟩⟩
    have hfind : find_last_of f "/" = npos :=
      lastIndexFrom_none _ _ 0 npos (no_slash_contains f.data h)
    have h0 : sizeAdd npos 1 = 0 := by decide
    have hsub : substr f (sizeAdd (find_last_of f "/") 1) = .ok f := by
      rw [hfind, h0]
      unfold substr
      rw [if_neg (by omega)]
      rfl
    unfold setScriptName
    simp only [hex, hattr, if_true, hsub]
  · refine ⟨String.mk post, ?_, Or.inr ⟨pre, hl, hp⟩⟩
    have hfind : find_last_of f "/" = pre.length := by
      unfold find_last_of
      rw [hl, lastIndexFrom_last _ pre '/' post 0 npos (by rw [slash_contains]; decide)
        (no_slash_contains post hp)]
      omega
    rw [hl] at hlen
    simp only [List.length_append, List.length_cons] at hlen
    have hadd : sizeAdd pre.length 1 = pre.length + 1 := by
      unfold sizeAdd
      exact Nat.mod_eq_of_lt (by omega)
    have hsub : substr f (sizeAdd (find_last_of f "/") 1) = .ok (String.mk post) := by
      rw [hfind, hadd]
      unfold substr
      rw [hl, if_neg (by simp)]
      congr 1
      apply String.ext
      show List.drop (pre.length + 1) (pre ++ '/' :: post) = post
      have happ : pre ++ '/' :: post = (pre ++ ['/']) ++ post := by simp
      rw [happ]
      exact List.drop_left' (by simp)
    unfold setScriptName
    simp only [hex, hattr, if_true, hsub]

/-- C17: when the `script` item has a file attribute `f`, `setScriptName` sets the
script name to the part of `f` behind its last slash, all of `f` when it has
none; without the item or without the attribute the script name stays as it
was; in each case the call returns true exactly when the script name is not
empty afterwards, so that from an unset name it returns false in the second
case. -/
theorem C17_setScriptName (config : ConfigCategory) (old : String) :
    (∀ f, config.getItemAttribute "script" = some f → f.data.length < two64 →
      ∃ name, setScriptName config old = .ok (!(decide (name.data = [])), name) ∧
        (('/' ∉ f.data ∧ name = f) ∨
          ∃ pre, f.data = pre ++ '/' :: name.data ∧ '/' ∉ name.data)) ∧
    (config.getItemAttribute "script" = Option.none →
      setScriptName config old = .ok (!(decide (old.data = [])), old)) ∧
    (config.getItemAttribute "script" = Option.none →
      setScriptName config "" = .ok (false, "")) :=
  ⟨fun f hattr hlen => setScriptName_of_file config old f hattr hlen,
    fun hattr => setScriptName_without_file config old hattr,
    fun hattr => setScriptName_without_file config "" hattr⟩

/-- C17, at a file attribute with a directory part, at one that ends in a slash,
and at a configuration without `script` item. -/
theorem C17_setScriptName_witness :
    setScriptName (sampleConfig "/usr/local/scripts/MyCat_script_transform.py") "old" =
      .ok (true, "MyCat_script_transform.py") ∧
    setScriptName (sampleConfig "scripts/") "old" = .ok (false, "") ∧
    setScriptName noScriptConfig "old" = .ok (true, "old") ∧
    setScriptName noScriptConfig "" = .ok (false, "") ∧
    (∃ name, setScriptName (sampleConfig "a/b.py") "old" =
        .ok (!(decide (name.data = [])), name) ∧
      (('/' ∉ "a/b.py".data ∧ name = "a/b.py") ∨
        ∃ pre, "a/b.py".data = pre ++ '/' :: name.data ∧ '/' ∉ name.data)) :=
  ⟨rfl, rfl, (C17_setScriptName noScriptConfig "old").2.1 rfl,
    (C17_setScriptName noScriptConfig "old").2.2 rfl,
    (C17_setScriptName (sampleConfig "a/b.py") "old").1 "a/b.py" rfl (by decide)⟩

/-! ## Collapse of datapoint names and integer values -/

theorem PyDict.keys_set (d : PyDict) (k : String) (v : PyObj) :
    (PyDict.set d k v).map Prod.fst =
      if k ∈ d.map Prod.fst then d.map Prod.fst else d.map Prod.fst ++ [k] := by
  induction d with
  | nil => simp [PyDict.set]
  | cons kv rest ih =>
    obtain ⟨k0, v0⟩ := kv
    by_cases h : k0 = k
    · subst h
      simp [PyDict.set]
    · have h' : ¬ k = k0 := fun e => h e.symm
      simp only [PyDict.set, h, if_false, List.map_cons, ih, List.mem_cons, h', false_or]
      split <;> simp

theorem PyDict.nodup_set (d : PyDict) (k : String) (v : PyObj)
    (h : (d.map Prod.fst).Nodup) : ((PyDict.set d k v).map Prod.fst).Nodup := by
  rw [PyDict.keys_set]
  split
  · exact h
  · rename_i hk
    exact List.Nodup.append h (List.nodup_singleton k) (by simpa using hk)

theorem PyDict.get_isSome_iff (d : PyDict) (k : String) :
    (PyDict.get d k).isSome = true ↔ k ∈ d.map Prod.fst := by
  induction d with
  | nil => simp [PyDict.get]
  | cons kv rest ih =>
    obtain ⟨k0, v0⟩ := kv
    by_cases h : k0 = k
    · simp [PyDict.get, h]
    · have h' : ¬ k = k0 := fun e => h e.symm
      simp [PyDict.get, h, h', ih]

theorem newDataPoints_fold_nodup (vts : DatapointValue → String) (d : PyDict)
    (dps : List Datapoint) (h : (d.map Prod.fst).Nodup) :
    ((dps.foldl (fun d dp => PyDict_SetItemString d dp.name (datapointToPy vts dp.data)) d).map
      Prod.fst).Nodup := by
  induction dps generalizing d with
  | nil => exact h
  | cons q rest ih => exact ih _ (PyDict.nodup_set d _ _ h)

theorem newDataPoints_nodup (vts : DatapointValue → String) (dps : List Datapoint) :
    ((newDataPoints vts dps).map Prod.fst).Nodup :=
  newDataPoints_fold_nodup vts [] dps (by simp)

theorem newDataPoints_length (vts : DatapointValue → String) (dps : List Datapoint) :
    (newDataPoints vts dps).length = ((dps.map (fun dp => cstr dp.name)).dedup).length := by
  have hperm : ((newDataPoints vts dps).map Prod.fst).Perm
      ((dps.map (fun dp => cstr dp.name)).dedup) := by
    rw [List.perm_ext_iff_of_nodup (newDataPoints_nodup vts dps) (List.nodup_dedup _)]
    intro k
    rw [← PyDict.get_isSome_iff, newDataPoints_keys, List.mem_dedup, List.mem_map]
  simpa using hperm.length_eq

theorem dedup_length_lt (l : List String) (h : ¬ l.Nodup) : l.dedup.length < l.length := by
  have hsub := List.dedup_sublist l
  rcases Nat.lt_or_ge l.dedup.length l.length with hlt | hge
  · exact hlt
  · exact absurd (List.dedup_eq_self.mp (hsub.eq_of_length_le hge)) h

theorem PyDict.values_set (P : PyObj → Prop) (d : PyDict) (k : String) (v : PyObj)
    (hd : ∀ kv ∈ d, P kv.2) (hv : P v) : ∀ kv ∈ PyDict.set d k v, P kv.2 := by
  induction d with
  | nil =>
    intro kv hkv
    simp only [PyDict.set, List.mem_singleton] at hkv
    subst hkv
    exact hv
  | cons x rest ih =>
    obtain ⟨k0, v0⟩ := x
    intro kv hkv
    by_cases h : k0 = k
    · simp only [PyDict.set, h, if_true, List.mem_cons] at hkv
      rcases hkv with rfl | hkv
      · exact hv
      · exact hd kv (List.mem_cons_of_mem _ hkv)
    · simp only [PyDict.set, h, if_false, List.mem_cons] at hkv
      rcases hkv with rfl | hkv
      · exact hd _ (List.mem_cons_self _ _)
      · exact ih (fun y hy => hd y (List.mem_cons_of_mem _ hy)) kv hkv

theorem supported_datapointToPy (vts : DatapointValue → String) (v : DatapointValue) :
    Supported (datapointToPy vts v) := by
  cases v <;> rfl

theorem newDataPoints_fold_supported (vts : DatapointValue → String) (d : PyDict)
    (dps : List Datapoint) (h : ∀ kv ∈ d, Supported kv.2) :
    ∀ kv ∈ dps.foldl (fun d dp => PyDict_SetItemString d dp.name (datapointToPy vts dp.data)) d,
      Supported kv.2 := by
  induction dps generalizing d with
  | nil => exact h
  | cons q rest ih =>
    exact ih _ (PyDict.values_set Supported d _ _ h (supported_datapointToPy vts q.data))

theorem readElement_readingObject_length (vts : DatapointValue → String) (d : ReadingDefaults)
    (r : Reading) :
    ∃ o, readElement d (readingObject vts r) = .ok o ∧
      (o = Option.none ↔ r.readingData = []) ∧
      ∀ r', o = some r' →
        r'.readingData.length = ((r.readingData.map (fun dp => cstr dp.name)).dedup).length := by
  have ha : PyDict_GetItemString (readingObject vts r) "asset_code" =
      some (.str (cstr r.assetName)) := rfl
  have hrd : PyDict_GetItemString (readingObject vts r) "reading" =
      some (.dict (newDataPoints vts r.readingData)) := rfl
  obtain ⟨o, ho, _, hn⟩ := readElement_supported d (readingObject vts r) _ _ ha hrd
    (newDataPoints_fold_supported vts [] r.readingData (by simp))
  refine ⟨o, ho, ?_, ?_⟩
  · rw [hn]
    constructor
    · intro h0
      have := newDataPoints_length vts r.readingData
      rw [h0] at this
      have h1 : (r.readingData.map (fun dp => cstr dp.name)).dedup = [] :=
        List.length_eq_zero.mp this.symm
      cases hdata : r.readingData with
      | nil => rfl
      | cons q rest =>
        rw [hdata] at h1
        have : cstr q.name ∈ (List.map (fun dp => cstr dp.name) (q :: rest)).dedup := by
          rw [List.mem_dedup]; simp
        rw [h1] at this
        simp at this
    · intro h0
      rw [h0]
      rfl
  · intro r' hr'
    subst hr'
    obtain ⟨a, entries, _, hrd', hcases⟩ := readElement_ok d (readingObject vts r) _ ho
    rw [hrd] at hrd'
    cases hrd'
    rcases hcases with ⟨_, h0⟩ | ⟨s, r'', _, hr'', _, hdata⟩
    · cases h0
    · cases hr''
      have := congrArg List.length hdata
      simp only [List.length_map] at this
      rw [this, newDataPoints_length]

/-- C19: the `reading` dictionary that `createReadingsList` builds for a reading
has one entry per distinct datapoint name (names taken as C strings): its keys
are pairwise distinct, their number is the number of distinct names, and the
entry of a name carries the value of the last datapoint of that name; decoding
the dictionary of the reading succeeds and gives as many datapoints as there
are distinct names, fewer than the reading had when two datapoints share a
name. -/
theorem C19_names_collapse (vts : DatapointValue → String) (r : Reading) :
    PyDict_GetItemString (readingObject vts r) "reading" =
      some (PyObj.dict (newDataPoints vts r.readingData)) ∧
    ((newDataPoints vts r.readingData).map Prod.fst).Nodup ∧
    (newDataPoints vts r.readingData).length =
      ((r.readingData.map (fun dp => cstr dp.name)).dedup).length ∧
    (∀ pre dp post, r.readingData = pre ++ dp :: post →
      (∀ q ∈ post, cstr q.name ≠ cstr dp.name) →
      PyDict.get (newDataPoints vts r.readingData) (cstr dp.name) =
        some (datapointToPy vts dp.data)) ∧
    (∀ d, ∃ o, readElement d (readingObject vts r) = .ok o ∧
      (o = Option.none ↔ r.readingData = []) ∧
      ∀ r', o = some r' →
        r'.readingData.length = ((r.readingData.map (fun dp => cstr dp.name)).dedup).length) ∧
    (¬ (r.readingData.map (fun dp => cstr dp.name)).Nodup →
      ((r.readingData.map (fun dp => cstr dp.name)).dedup).length < r.readingData.length) := by
  refine ⟨rfl, newDataPoints_nodup vts _, newDataPoints_length vts _, ?_,
    fun d => readElement_readingObject_length vts d r, ?_⟩
  · intro pre dp post hdata hpost
    rw [hdata]
    exact newDataPoints_get_last vts pre dp post hpost
  · intro h
    have := dedup_length_lt _ h
    simpa using this

/-- C19, at a reading with two datapoints named `rpm`: one entry, with the second
value, and one datapoint after decoding. -/
theorem C19_names_collapse_witness :
    newDataPoints bareString sampleTwice.readingData = [("rpm", PyObj.int 2)] ∧
    getFilteredReadings sampleDefaults (createReadingsList bareString [sampleTwice]) =
      .ok [some { assetName := "pump", readingData := [⟨"rpm", .T_INTEGER 2⟩], id := 5,
                  uuid := "u-1", timestamp := 70, userTimestamp := 71 }] ∧
    ((sampleTwice.readingData.map (fun dp => cstr dp.name)).dedup).length <
      sampleTwice.readingData.length :=
  ⟨rfl, rfl, (C19_names_collapse bareString sampleTwice).2.2.2.2.2 (by decide)⟩

theorem toLong_range (u : Nat) : -(2 ^ 63 : Int) ≤ toLong u ∧ toLong u < 2 ^ 63 := by
  unfold toLong two64
  split <;> omega

theorem toLong_congr (n : Int) :
    (toLong ((n % (two64 : Int)).toNat) - n) % (two64 : Int) = 0 := by
  unfold toLong two64
  split <;> omega

/-- C20: an engine integer or long `n` in a `reading` dictionary is decoded, without
failure, to the integer value `n mod 2^64` read as a signed 64-bit number: a
number of the `long` range that differs from `n` by a multiple of 2^64, which
is `n` itself exactly when `n` lies in that range. -/
theorem C20_integer_modulo_two64 (n : Int) :
    datapointValueOf (PyObj.int n) =
      some (DatapointValue.T_INTEGER (toLong ((n % (2 ^ 64 : Int)).toNat))) ∧
    datapointValueOf (PyObj.long n) =
      some (DatapointValue.T_INTEGER (toLong ((n % (2 ^ 64 : Int)).toNat))) ∧
    (-(2 ^ 63 : Int) ≤ toLong ((n % (2 ^ 64 : Int)).toNat) ∧
      toLong ((n % (2 ^ 64 : Int)).toNat) < 2 ^ 63) ∧
    (toLong ((n % (2 ^ 64 : Int)).toNat) - n) % (2 ^ 64 : Int) = 0 ∧
    (toLong ((n % (2 ^ 64 : Int)).toNat) = n ↔ -(2 ^ 63 : Int) ≤ n ∧ n < 2 ^ 63) ∧
    (∀ (defaults : Nat → ReadingDefaults) (asset key : String),
      getFilteredReadings defaults
        (.list [.dict [("asset_code", .str asset), ("reading", .dict [(key, .long n)])]]) =
        .ok [some { assetName := cstr asset,
                    readingData :=
                      [⟨cstr key, .T_INTEGER (toLong ((n % (2 ^ 64 : Int)).toNat))⟩],
                    id := (defaults 0).id, uuid := (defaults 0).uuid,
                    timestamp := (defaults 0).timestamp,
                    userTimestamp := (defaults 0).userTimestamp }]) := by
  have h64 : ((two64 : Nat) : Int) = (2 ^ 64 : Int) := by norm_num [two64]
  refine ⟨?_, ?_, ?_, ?_, ?_, ?_⟩
  · simp [datapointValueOf, PyInt_Check, PyInt_AsUnsignedLongMask, PyObj.intValue, h64]
  · simp [datapointValueOf, PyInt_Check, PyLong_Check, PyInt_AsUnsignedLongMask,
      PyObj.intValue, h64]
  · exact toLong_range _
  · have := toLong_congr n
    rw [h64] at this
    exact this
  · constructor
    · intro h
      have := toLong_range ((n % (2 ^ 64 : Int)).toNat)
      rw [h] at this
      exact this
    · rintro ⟨h1, h2⟩
      have := toLong_mask n h1 h2
      simpa [PyInt_AsUnsignedLongMask, PyObj.intValue, h64] using this
  · intro defaults asset key
    have hv : datapointValueOf (PyObj.long n) =
        some (DatapointValue.T_INTEGER (toLong ((n % (2 ^ 64 : Int)).toNat))) := by
      simp [datapointValueOf, PyInt_Check, PyLong_Check, PyInt_AsUnsignedLongMask,
        PyObj.intValue, h64]
    have ha : PyDict_GetItemString
        (.dict [("asset_code", .str asset), ("reading", .dict [(key, .long n)])]) "asset_code" =
        some (.str asset) := rfl
    have hr : PyDict_GetItemString
        (.dict [("asset_code", .str asset), ("reading", .dict [(key, .long n)])]) "reading" =
        some (.dict [(key, .long n)]) := rfl
    have hid : PyDict_GetItemString
        (.dict [("asset_code", .str asset), ("reading", .dict [(key, .long n)])]) "id" =
        Option.none := rfl
    have hts : PyDict_GetItemString
        (.dict [("asset_code", .str asset), ("reading", .dict [(key, .long n)])]) "ts" =
        Option.none := rfl
    have huts : PyDict_GetItemString
        (.dict [("asset_code", .str asset), ("reading", .dict [(key, .long n)])]) "user_ts" =
        Option.none := rfl
    have huuid : PyDict_GetItemString
        (.dict [("asset_code", .str asset), ("reading", .dict [(key, .long n)])]) "uuid" =
        Option.none := rfl
    simp only [getFilteredReadings, readElements, readElement, ha, hr, readDatapoints, hv,
      PyString_AsString, setOriginal, setOriginalId, setOriginalTs, setOriginalUserTs,
      setOriginalUuid, hid, hts, huts, huuid, Reading.new]

/-- C20 at the long `2^64 + 3`, decoded as 3, at `2^63`, decoded as `-2^63`, and
at -1, decoded as -1. -/
theorem C20_integer_modulo_two64_witness :
    datapointValueOf (PyObj.long (2 ^ 64 + 3)) = some (DatapointValue.T_INTEGER 3) ∧
    datapointValueOf (PyObj.long (2 ^ 63)) = some (DatapointValue.T_INTEGER (-(2 ^ 63))) ∧
    datapointValueOf (PyObj.int (-1)) = some (DatapointValue.T_INTEGER (-1)) ∧
    (toLong (((-1 : Int) % (2 ^ 64 : Int)).toNat) = -1 ↔
      -(2 ^ 63 : Int) ≤ -1 ∧ (-1 : Int) < 2 ^ 63) :=
  ⟨by decide, by decide, by decide, (C20_integer_modulo_two64 (-1)).2.2.2.2.1⟩

end Python27Filter
